import Mathlib

/-!
Verification of the Healthtech Consultations API summarization pipeline.

Shallow embedding of the Python sources:
  app/core/constants.py        (vital-sign reference ranges, text limits, terms)
  app/utils/text.py            (TextProcessor)
  app/services/validators/clinical.py   (ClinicalValidator)
  app/services/summarizers/rule_based.py (RuleBasedSummarizer)
  app/services/summarizers/llm_based.py  (LLMBasedSummarizer)

Machine integers are modelled as Int, Python floats as Rat (the program
only compares and formats them; no float-rounding behaviour is relied on
by any statement proved here).  Python str values are Lean String.
Fallible code returns Except.  Dates are explicit year/month/day records
and "today" is passed as a parameter wherever the code calls
date.today().
-/

set_option maxRecDepth 20000

namespace HC

/-- Python date objects (pydantic `date` fields). -/
structure Date where
  year : Nat
  month : Nat
  day : Nat
deriving DecidableEq, Repr

/-- Python `date` ordering (lexicographic on year, month, day). -/
def Date.lt (a b : Date) : Bool :=
  (a.year < b.year) ||
  (a.year = b.year && (a.month < b.month ||
    (a.month = b.month && a.day < b.day)))

/-- app/models/common.py WarningLevel enum. -/
inductive WarningLevel where
  | info
  | low
  | medium
  | high
deriving DecidableEq, Repr

/-- Serialized value of the WarningLevel enum. -/
def WarningLevel.value : WarningLevel → String
  | .info => "info"
  | .low => "low"
  | .medium => "medium"
  | .high => "high"

/-- app/models/consultation.py ConsultationWarning. -/
structure ConsultationWarning where
  code : String
  level : WarningLevel
  message : String
  field : Option String
  value : Option String
deriving DecidableEq, Repr

/-- app/models/consultation.py SummarySection. -/
structure SummarySection where
  title : String
  code : String
  content : String
  order : Int
deriving DecidableEq, Repr

/-- app/services/summarizers/base.py SummarizerResult. -/
structure SummarizerResult where
  sections : List SummarySection
  full_text : String
  warnings : List ConsultationWarning
  strategy_used : String
deriving DecidableEq, Repr

/-- Python int-or-float values (the `int | float` unions in the code). -/
inductive PyNum where
  | i (n : Int)
  | f (q : Rat)
deriving DecidableEq, Repr

/-- Numeric value of a PyNum as a rational, for comparisons. -/
def PyNum.toQ : PyNum → Rat
  | .i n => (n : Rat)
  | .f q => q

/-- app/models/common.py BiologicalSex enum. -/
inductive BiologicalSex where
  | male
  | female
  | intersex
deriving DecidableEq, Repr

/-- Serialized value of the BiologicalSex enum. -/
def BiologicalSex.value : BiologicalSex → String
  | .male => "male"
  | .female => "female"
  | .intersex => "intersex"

/-- app/models/patient.py VitalSigns (all fields optional). -/
structure VitalSigns where
  systolic_bp : Option Int
  diastolic_bp : Option Int
  heart_rate : Option Int
  respiratory_rate : Option Int
  temperature_celsius : Option Rat
  oxygen_saturation : Option Int
  pain_scale : Option Int
  weight_kg : Option Rat
  height_cm : Option Rat
deriving DecidableEq, Repr

/-- A VitalSigns object with every field null. -/
def VitalSigns.allNone : VitalSigns :=
  ⟨none, none, none, none, none, none, none, none, none⟩

/-- app/models/patient.py Patient.  blood_type is modelled by its
serialized enum value. -/
structure Patient where
  full_name : String
  cpf : String
  birth_date : Date
  biological_sex : BiologicalSex
  blood_type : Option String
  is_pregnant : Bool
  gestational_weeks : Option Int
deriving DecidableEq, Repr

/-- app/models/medication.py Medication (frequency and route modelled by
their serialized enum values; frequency is optional in rule_based usage). -/
structure Medication where
  active_ingredient : String
  dosage : String
  frequency : Option String
  route : String
  start_date : Option Date
  end_date : Option Date
deriving DecidableEq, Repr

/-- app/models/medication.py Allergy. -/
structure Allergy where
  allergen : String
  reaction_type : String
  severity : String
  confirmed : Bool
deriving DecidableEq, Repr

/-- app/models/consultation.py ConsultationCreate. -/
structure ConsultationCreate where
  patient : Patient
  consultation_date : Date
  consultation_type : String
  facility_name : Option String
  chief_complaint : String
  history_present_illness : Option String
  vital_signs : Option VitalSigns
  physical_examination : Option String
  current_medications : List Medication
  allergies : List Allergy
  past_medical_history : List String
  family_history : List String
  social_history : Option String
  professional_name : String
  professional_council_id : Option String
  specialty : Option String
  treatment_plan : Option String
  additional_notes : Option String
deriving DecidableEq, Repr

/-- Python truthiness of an optional string (`if consultation.field:`). -/
def strTruthy : Option String → Bool
  | none => false
  | some s => s ≠ ""

/-! ### Character-level helpers (Python str methods) -/

/-- Python str.strip() whitespace set (ASCII part, which is all the
repository ever feeds it). -/
def isPySpace (c : Char) : Bool :=
  c = ' ' || c = '\t' || c = '\n' || c = '\r' || c = '\x0b' || c = '\x0c'

/-- Python str.lower() for ASCII letters and the Latin-1 accented
uppercase letters that can occur in the clinical strings. -/
def pyLowerChar (c : Char) : Char :=
  if 'A' ≤ c ∧ c ≤ 'Z' then Char.ofNat (c.toNat + 32)
  else if 0xC0 ≤ c.toNat ∧ c.toNat ≤ 0xDE ∧ c.toNat ≠ 0xD7 then
    Char.ofNat (c.toNat + 32)
  else c

/-- str.lower() on char lists. -/
def lowerL (s : List Char) : List Char := s.map pyLowerChar

/-- Python str.strip() on char lists. -/
def stripL (s : List Char) : List Char :=
  ((s.dropWhile isPySpace).reverse.dropWhile isPySpace).reverse

/-- Python str.strip(). -/
def pyStrip (s : String) : String := String.mk (stripL s.data)

/-- Python slicing s[:n] (take the first n characters). -/
def pyTake (s : String) (n : Nat) : String := String.mk (s.data.take n)

/-- Python str.lower(). -/
def pyLower (s : String) : String := String.mk (lowerL s.data)

/-- Python str.upper() for ASCII letters and the Latin-1 accented
lowercase letters that can occur in the section titles. -/
def pyUpperChar (c : Char) : Char :=
  if 'a' ≤ c ∧ c ≤ 'z' then Char.ofNat (c.toNat - 32)
  else if 0xE0 ≤ c.toNat ∧ c.toNat ≤ 0xFE ∧ c.toNat ≠ 0xF7 then
    Char.ofNat (c.toNat - 32)
  else c

/-- Python str.upper(). -/
def pyUpper (s : String) : String := String.mk (s.data.map pyUpperChar)

/-- Zero-padded two-digit rendering (strftime %d, %m). -/
def pad2 (n : Nat) : String :=
  if n < 10 then "0" ++ toString n else toString n

/-- Zero-padded four-digit year rendering (strftime %Y). -/
def pad4 (n : Nat) : String :=
  if n < 10 then "000" ++ toString n
  else if n < 100 then "00" ++ toString n
  else if n < 1000 then "0" ++ toString n
  else toString n

/-- str() of a python date (ISO YYYY-MM-DD). -/
def Date.iso (d : Date) : String :=
  pad4 d.year ++ "-" ++ pad2 d.month ++ "-" ++ pad2 d.day

/-- Decimal rendering of a rational that came from a Python float
(str(36.5) = "36.5"); always shows at least one decimal digit, as
Python float repr does for the in-range clinical values. -/
def renderQ (q : Rat) : String :=
  let sign := if q < 0 then "-" else ""
  let a : Rat := |q|
  let ip : Nat := a.floor.toNat
  let rec fracDigits : Nat → Rat → String
    | 0, _ => ""
    | Nat.succ k, r =>
      if r = 0 then ""
      else
        let r10 := r * 10
        let d : Nat := r10.floor.toNat
        toString d ++ fracDigits k (r10 - (r10.floor : Rat))
  let fr := fracDigits 6 (a - (a.floor : Rat))
  sign ++ toString ip ++ "." ++ (if fr = "" then "0" else fr)

/-- str() of an int-or-float value. -/
def PyNum.str : PyNum → String
  | .i n => toString n
  | .f q => renderQ q

/-! ### app/utils/text.py TextProcessor -/

namespace TextProcessor

/-- TextProcessor.truncate: returns (truncated_text, was_truncated). -/
def truncate (text : Option String) (maxLength : Nat)
    (suffix : String := "...") : String × Bool :=
  match text with
  | none => ("", false)
  | some t =>
    if t = "" then ("", false)
    else
      let t := pyStrip t
      if t.length ≤ maxLength then (t, false)
      else (pyStrip (pyTake t (maxLength - suffix.length)) ++ suffix, true)

/-- re.sub(r"[ \t]+", " ", text): collapse runs of blanks and tabs. -/
def collapseBlanks : List Char → List Char
  | [] => []
  | c :: rest =>
    if c = ' ' ∨ c = '\t' then
      ' ' :: collapseBlanks (rest.dropWhile (fun d => d = ' ' || d = '\t'))
    else
      c :: collapseBlanks rest
termination_by s => s.length
decreasing_by
  · simp only [List.length_cons]
    have hd : ∀ (p : Char → Bool) (l : List Char),
        (l.dropWhile p).length ≤ l.length := by
      intro p l
      induction l with
      | nil => simp [List.dropWhile]
      | cons c t ih =>
        by_cases h : p c
        · simp [List.dropWhile, h]; omega
        · simp [List.dropWhile, h]
    exact Nat.lt_succ_of_le (hd _ _)
  · simp

/-- re.sub(r"\n\x7b3,\x7d", "\n\n", text): squeeze newline runs of
length at least three down to two. -/
def squeezeNewlines : List Char → List Char
  | [] => []
  | c :: rest =>
    if c = '\n' then
      let run := rest.takeWhile (fun d => d = '\n')
      let tail := rest.dropWhile (fun d => d = '\n')
      (if run.length + 1 ≥ 3 then ['\n', '\n'] else '\n' :: run) ++
        squeezeNewlines tail
    else
      c :: squeezeNewlines rest
termination_by s => s.length
decreasing_by
  · simp only [List.length_cons]
    have hd : ∀ (p : Char → Bool) (l : List Char),
        (l.dropWhile p).length ≤ l.length := by
      intro p l
      induction l with
      | nil => simp [List.dropWhile]
      | cons c t ih =>
        by_cases h : p c
        · simp [List.dropWhile, h]; omega
        · simp [List.dropWhile, h]
    exact Nat.lt_succ_of_le (hd _ _)
  · simp

/-- TextProcessor.normalize_whitespace. -/
def normalizeWhitespace (text : Option String) : String :=
  match text with
  | none => ""
  | some t =>
    if t = "" then ""
    else String.mk (stripL (squeezeNewlines (collapseBlanks t.data)))

/-- TextProcessor.remove_duplicates: returns (unique, duplicates),
preserving order, comparing case-insensitively on stripped items. -/
def removeDuplicates (items : List String) : List String × List String :=
  let step := fun (st : List String × List String × List String)
      (item : String) =>
    let seen := st.1
    let uniq := st.2.1
    let dups := st.2.2
    let normalized := pyLower (pyStrip item)
    if normalized ≠ "" ∧ normalized ∉ seen then
      (normalized :: seen, uniq ++ [pyStrip item], dups)
    else if normalized ≠ "" then
      (seen, uniq, dups ++ [pyStrip item])
    else
      (seen, uniq, dups)
  let r := items.foldl step ([], [], [])
  (r.2.1, r.2.2)

/-- TextProcessor.format_date_br: ISO date to DD/MM/YYYY. -/
def formatDateBr (d : Date) : String :=
  pad2 d.day ++ "/" ++ pad2 d.month ++ "/" ++ pad4 d.year

/-- TextProcessor.calculate_age; the repository always passes the
string form of a valid pydantic date, so the parse never fails and the
result is modelled as the age integer directly. -/
def calculateAge (today : Date) (birth : Date) : Int :=
  let adjust : Int :=
    if today.month < birth.month ∨
        (today.month = birth.month ∧ today.day < birth.day) then 1 else 0
  (today.year : Int) - (birth.year : Int) - adjust

end TextProcessor

/-! ### app/core/constants.py -/

/-- constants.py VitalSignRange. -/
structure VitalSignRange where
  min_normal : Rat
  max_normal : Rat
  min_critical : Rat
  max_critical : Rat
  unit : String
deriving DecidableEq, Repr

/-- constants.py VITAL_SIGNS_RANGES (an association list in field order). -/
def VITAL_SIGNS_RANGES : List (String × VitalSignRange) :=
  [ ("systolic_bp", ⟨90, 120, 70, 180, "mmHg"⟩),
    ("diastolic_bp", ⟨60, 80, 40, 120, "mmHg"⟩),
    ("heart_rate", ⟨60, 100, 40, 150, "bpm"⟩),
    ("respiratory_rate", ⟨12, 20, 8, 30, "irpm"⟩),
    ("temperature_celsius", ⟨36, 37.5, 35, 40, "°C"⟩),
    ("oxygen_saturation", ⟨95, 100, 90, 100, "%"⟩) ]

/-- Dictionary lookup in VITAL_SIGNS_RANGES. -/
def rangesLookup (field : String) : Option VitalSignRange :=
  (VITAL_SIGNS_RANGES.find? (fun p => p.1 = field)).map (fun p => p.2)

/-- constants.py TEXT_LIMITS["history_present_illness"]. -/
def LIMIT_HPI : Nat := 2000
/-- constants.py TEXT_LIMITS["physical_examination"]. -/
def LIMIT_EXAM : Nat := 2000
/-- constants.py TEXT_LIMITS["treatment_plan"]. -/
def LIMIT_PLAN : Nat := 2000
/-- constants.py TEXT_LIMITS["additional_notes"]. -/
def LIMIT_NOTES : Nat := 1000
/-- constants.py TEXT_LIMITS["full_summary"]. -/
def LIMIT_FULL : Nat := 15000

/-- constants.py FORBIDDEN_DIAGNOSTIC_TERMS.  The Python value is a set;
it is embedded as the list of its elements in source order.  Every
property proved about the guardrail below is either independent of the
iteration order or quantifies over membership only. -/
def FORBIDDEN_DIAGNOSTIC_TERMS : List String :=
  [ "diagnóstico", "diagnostico", "diagnosticado",
    "hipótese diagnóstica", "hipotese diagnostica",
    "suspeita de", "sugere", "indica",
    "compatível com", "compativel com",
    "provável", "provavel", "possível", "possivel",
    "confirma", "confirmado", "conclusão", "conclusao",
    "parece ser", "aparenta ser", "quadro de",
    "quadro clínico de", "quadro clinico de",
    "característico de", "caracteristico de",
    "típico de", "tipico de", "condizente com",
    "sugestivo de", "indicativo de", "evidencia", "evidência de",
    "aponta para", "apresenta sinais de",
    "síndrome de", "sindrome de", "doença", "doenca",
    "patologia", "etiologia", "prognóstico", "prognostico",
    "diagnosis", "diagnosed", "suspected", "suggests", "indicates",
    "compatible with", "probable", "possible", "confirms", "confirmed",
    "conclusion", "consistent with", "suggestive of", "indicative of",
    "disease", "pathology", "etiology", "prognosis", "syndrome" ]

/-! ### app/services/validators/clinical.py ClinicalValidator -/

namespace ClinicalValidator

/-- ClinicalValidator._add_warning builds a ConsultationWarning record. -/
def mkWarning (code : String) (level : WarningLevel) (message : String)
    (field : Option String := none) (value : Option String := none) :
    ConsultationWarning :=
  ⟨code, level, message, field, value⟩

/-- ClinicalValidator._check_vital_range. -/
def checkVitalRange (fieldName : String) (value : PyNum) (label : String) :
    List ConsultationWarning :=
  match rangesLookup fieldName with
  | none => []
  | some rg =>
    let v := value.toQ
    let vs := value.str
    if v < rg.min_critical then
      [mkWarning (pyUpper fieldName ++ "_CRITICAL_LOW") .high
        (label ++ " criticamente baixa: " ++ vs ++ " " ++ rg.unit)
        (some ("vital_signs." ++ fieldName)) (some vs)]
    else if v < rg.min_normal then
      [mkWarning (pyUpper fieldName ++ "_LOW") .medium
        (label ++ " abaixo do esperado: " ++ vs ++ " " ++ rg.unit)
        (some ("vital_signs." ++ fieldName)) (some vs)]
    else if v > rg.max_critical then
      [mkWarning (pyUpper fieldName ++ "_CRITICAL_HIGH") .high
        (label ++ " criticamente elevada: " ++ vs ++ " " ++ rg.unit)
        (some ("vital_signs." ++ fieldName)) (some vs)]
    else if v > rg.max_normal then
      [mkWarning (pyUpper fieldName ++ "_HIGH") .low
        (label ++ " acima do esperado: " ++ vs ++ " " ++ rg.unit)
        (some ("vital_signs." ++ fieldName)) (some vs)]
    else []

/-- The (field, value, label) triples of _validate_vital_signs, in source
order, keeping only the fields that are not None. -/
def vitalChecks (vs : VitalSigns) : List (String × PyNum × String) :=
  (match vs.systolic_bp with
   | some v => [("systolic_bp", PyNum.i v, "Pressão sistólica")]
   | none => []) ++
  (match vs.diastolic_bp with
   | some v => [("diastolic_bp", PyNum.i v, "Pressão diastólica")]
   | none => []) ++
  (match vs.heart_rate with
   | some v => [("heart_rate", PyNum.i v, "Frequência cardíaca")]
   | none => []) ++
  (match vs.respiratory_rate with
   | some v => [("respiratory_rate", PyNum.i v, "Frequência respiratória")]
   | none => []) ++
  (match vs.temperature_celsius with
   | some v => [("temperature_celsius", PyNum.f v, "Temperatura")]
   | none => []) ++
  (match vs.oxygen_saturation with
   | some v => [("oxygen_saturation", PyNum.i v, "Saturação O2")]
   | none => [])

/-- ClinicalValidator._validate_vital_signs. -/
def validateVitalSigns (vital_signs : Option VitalSigns) :
    List ConsultationWarning :=
  match vital_signs with
  | none =>
    [mkWarning "MISSING_VITAL_SIGNS" .info
      "Sinais vitais não informados na consulta"]
  | some vs =>
    (vitalChecks vs).flatMap (fun t => checkVitalRange t.1 t.2.1 t.2.2)

/-- ClinicalValidator._validate_blood_pressure_consistency. -/
def validateBloodPressureConsistency (vital_signs : Option VitalSigns) :
    List ConsultationWarning :=
  match vital_signs with
  | none => []
  | some vs =>
    match vs.systolic_bp, vs.diastolic_bp with
    | some systolic, some diastolic =>
      (if systolic ≤ diastolic then
        [mkWarning "BP_INCONSISTENT" .high
          ("Pressão sistólica (" ++ toString systolic ++
            ") deve ser maior que diastólica (" ++ toString diastolic ++ ")")
          (some "vital_signs")
          (some (toString systolic ++ "/" ++ toString diastolic))]
       else []) ++
      (let pulse_pressure := systolic - diastolic
       if pulse_pressure < 25 then
        [mkWarning "PULSE_PRESSURE_LOW" .medium
          ("Pressão de pulso baixa: " ++ toString pulse_pressure ++ " mmHg")
          (some "vital_signs") (some (toString pulse_pressure))]
       else if pulse_pressure > 60 then
        [mkWarning "PULSE_PRESSURE_HIGH" .low
          ("Pressão de pulso elevada: " ++ toString pulse_pressure ++ " mmHg")
          (some "vital_signs") (some (toString pulse_pressure))]
       else [])
    | _, _ => []

/-- ClinicalValidator._validate_pregnancy. -/
def validatePregnancy (today : Date) (c : ConsultationCreate) :
    List ConsultationWarning :=
  let patient := c.patient
  if patient.is_pregnant then
    let age := TextProcessor.calculateAge today patient.birth_date
    (if age < 14 then
      [mkWarning "PREGNANCY_YOUNG_AGE" .high
        ("Gravidez em paciente com " ++ toString age ++
          " anos requer atenção especial")
        (some "patient.is_pregnant") (some (toString age))]
     else if age > 45 then
      [mkWarning "PREGNANCY_ADVANCED_AGE" .medium
        ("Gravidez em paciente com " ++ toString age ++
          " anos (idade materna avançada)")
        (some "patient.is_pregnant") (some (toString age))]
     else []) ++
    (match patient.gestational_weeks with
     | some weeks =>
       if weeks > 42 then
        [mkWarning "GESTATIONAL_WEEKS_HIGH" .high
          ("Idade gestacional de " ++ toString weeks ++ " semanas (pós-termo)")
          (some "patient.gestational_weeks") (some (toString weeks))]
       else []
     | none => [])
  else []

/-- ClinicalValidator._validate_age_specific (the age >= 80 branch of the
source is a `pass` and contributes nothing). -/
def validateAgeSpecific (today : Date) (c : ConsultationCreate) :
    List ConsultationWarning :=
  let age := TextProcessor.calculateAge today c.patient.birth_date
  match c.vital_signs with
  | none => []
  | some vital_signs =>
    match vital_signs.heart_rate with
    | some hr =>
      if age < 12 ∧ hr < 70 then
        [mkWarning "PEDIATRIC_HR_LOW" .medium
          ("FC de " ++ toString hr ++
            " bpm pode ser baixa para paciente pediátrico (" ++
            toString age ++ " anos)")
          (some "vital_signs.heart_rate") (some (toString hr))]
      else []
    | none => []

/-- ClinicalValidator._validate_medications. -/
def validateMedications (today : Date) (c : ConsultationCreate) :
    List ConsultationWarning :=
  (c.current_medications.enum).flatMap (fun mi =>
    let idx := mi.1
    let med := mi.2
    (match med.start_date with
     | none =>
       [mkWarning "MEDICATION_NO_START_DATE" .info
         ("Medicamento \x27" ++ med.active_ingredient ++
           "\x27 sem data de início")
         (some ("current_medications[" ++ toString idx ++ "].start_date"))
         (some "null")]
     | some _ => []) ++
    (match med.end_date with
     | some e =>
       if Date.lt e today then
        [mkWarning "MEDICATION_ENDED" .low
          ("Medicamento \x27" ++ med.active_ingredient ++
            "\x27 com data de término no passado (" ++ e.iso ++ ")")
          (some ("current_medications[" ++ toString idx ++ "].end_date"))
          (some e.iso)]
       else []
     | none => []))

/-- ClinicalValidator._validate_allergies. -/
def validateAllergies (c : ConsultationCreate) : List ConsultationWarning :=
  let severe_allergies := c.allergies.filter
    (fun a => a.severity = "severe" || a.severity = "life_threatening")
  (if severe_allergies ≠ [] then
    let allergens := String.intercalate ", "
      (severe_allergies.map (fun a => a.allergen))
    [mkWarning "SEVERE_ALLERGIES_PRESENT" .medium
      ("Paciente possui alergias graves: " ++ allergens)
      (some "allergies") (some (toString severe_allergies.length))]
   else []) ++
  (let unconfirmed := c.allergies.filter (fun a => !a.confirmed)
   if unconfirmed ≠ [] then
    [mkWarning "UNCONFIRMED_ALLERGIES" .info
      (toString unconfirmed.length ++ " alergia(s) não confirmada(s) por exame")
      (some "allergies") (some (toString unconfirmed.length))]
   else [])

/-- ClinicalValidator._validate_missing_data. -/
def validateMissingData (c : ConsultationCreate) : List ConsultationWarning :=
  (if c.family_history = [] then
    [mkWarning "MISSING_FAMILY_HISTORY" .info
      "Histórico familiar não informado" (some "family_history") (some "[]")]
   else []) ++
  (if c.past_medical_history = [] then
    [mkWarning "MISSING_PAST_HISTORY" .info
      "Antecedentes patológicos não informados"
      (some "past_medical_history") (some "[]")]
   else []) ++
  (if c.consultation_type = "emergency" ∧ c.vital_signs = none then
    [mkWarning "EMERGENCY_NO_VITALS" .medium
      "Consulta de emergência sem sinais vitais registrados"
      (some "vital_signs") (some "null")]
   else [])

/-- ClinicalValidator.validate: all validations in source order. -/
def validate (today : Date) (c : ConsultationCreate) :
    List ConsultationWarning :=
  validateVitalSigns c.vital_signs ++
  validateBloodPressureConsistency c.vital_signs ++
  validatePregnancy today c ++
  validateAgeSpecific today c ++
  validateMedications today c ++
  validateAllergies c ++
  validateMissingData c

end ClinicalValidator

/-! ### app/services/summarizers/rule_based.py RuleBasedSummarizer -/

namespace RuleBased

/-- Banker-style rounding used by Python float formatting, on rationals. -/
def roundHalfEven (x : Rat) : Int :=
  let fl := x.floor
  let frac := x - (fl : Rat)
  if frac < 1/2 then fl
  else if frac > 1/2 then fl + 1
  else if fl % 2 = 0 then fl else fl + 1

/-- f-string :.1f formatting for the (positive) BMI value. -/
def format1f (q : Rat) : String :=
  let n10 : Int := roundHalfEven (q * 10)
  toString (n10 / 10) ++ "." ++ toString (n10 % 10)

/-- RuleBasedSummarizer._add_truncation_warning. -/
def truncationWarning (field : String) (limit : Nat) : ConsultationWarning :=
  ⟨"TEXT_TRUNCATED", .info,
    "Campo \x27" ++ field ++ "\x27 truncado para " ++ toString limit ++
      " caracteres",
    some field, some (toString limit)⟩

/-- RuleBasedSummarizer._add_duplicate_warning. -/
def duplicateWarning (field : String) (duplicates : List String) :
    ConsultationWarning :=
  ⟨"DUPLICATE_REMOVED", .info,
    "Duplicata(s) removida(s) de \x27" ++ field ++ "\x27: " ++
      String.intercalate ", " (duplicates.take 3),
    some field, some (toString duplicates.length)⟩

/-- RuleBasedSummarizer._build_identification_section. -/
def buildIdentificationSection (today : Date) (c : ConsultationCreate) :
    SummarySection :=
  let patient := c.patient
  let age := TextProcessor.calculateAge today patient.birth_date
  let age_str := " (" ++ toString age ++ " anos)"
  let birth_date_br := TextProcessor.formatDateBr patient.birth_date
  let sex_str :=
    match patient.biological_sex with
    | .male => "Masculino"
    | .female => "Feminino"
    | .intersex => "Intersexo"
  let lines :=
    [ "Paciente: " ++ patient.full_name,
      "CPF: " ++ patient.cpf,
      "Nascimento: " ++ birth_date_br ++ age_str,
      "Sexo biológico: " ++ sex_str ] ++
    (match patient.blood_type with
     | some bt => ["Tipo sanguíneo: " ++ bt]
     | none => []) ++
    (if patient.is_pregnant then
      let weeks :=
        match patient.gestational_weeks with
        | some w => toString w
        | none => "?"
      ["Gestante: " ++ weeks ++ " semanas"]
     else [])
  let consult_date_br := TextProcessor.formatDateBr c.consultation_date
  let consult_type_str :=
    if c.consultation_type = "first_visit" then "Primeira consulta"
    else if c.consultation_type = "follow_up" then "Retorno"
    else if c.consultation_type = "emergency" then "Emergência"
    else if c.consultation_type = "telemedicine" then "Teleconsulta"
    else if c.consultation_type = "routine" then "Rotina"
    else c.consultation_type
  let lines := lines ++
    ["Data da consulta: " ++ consult_date_br, "Tipo: " ++ consult_type_str] ++
    (match c.facility_name with
     | some f => ["Local: " ++ f]
     | none => []) ++
    ["Profissional: " ++ c.professional_name] ++
    (match c.professional_council_id with
     | some r => ["Registro: " ++ r]
     | none => []) ++
    (match c.specialty with
     | some s => ["Especialidade: " ++ s]
     | none => [])
  ⟨"Identificação", "identification", String.intercalate " | " lines, 1⟩

/-- RuleBasedSummarizer._build_complaint_section; also returns the
warnings it records. -/
def buildComplaintSection (c : ConsultationCreate) :
    SummarySection × List ConsultationWarning :=
  let parts := ["Queixa principal: " ++ c.chief_complaint]
  let hpiPart :=
    if strTruthy c.history_present_illness then
      let r := TextProcessor.truncate c.history_present_illness LIMIT_HPI
      let w := if r.2 then [truncationWarning "history_present_illness" LIMIT_HPI]
               else []
      (["\nHDA: " ++ TextProcessor.normalizeWhitespace (some r.1)], w)
    else ([], [])
  let parts := parts ++ hpiPart.1
  (⟨"Queixa e História", "complaint_history",
    String.intercalate "\n" parts, 2⟩, hpiPart.2)

/-- RuleBasedSummarizer._build_vital_signs_section. -/
def buildVitalSignsSection (c : ConsultationCreate) : SummarySection :=
  match c.vital_signs with
  | none => ⟨"Sinais Vitais", "vital_signs", "Não informados", 3⟩
  | some vs =>
    let parts : List String :=
      (match vs.systolic_bp, vs.diastolic_bp with
       | some s, some d =>
         ["PA: " ++ toString s ++ "x" ++ toString d ++ " mmHg"]
       | some s, none => ["PAS: " ++ toString s ++ " mmHg"]
       | none, some d => ["PAD: " ++ toString d ++ " mmHg"]
       | none, none => []) ++
      (match vs.heart_rate with
       | some v => ["FC: " ++ toString v ++ " bpm"]
       | none => []) ++
      (match vs.respiratory_rate with
       | some v => ["FR: " ++ toString v ++ " irpm"]
       | none => []) ++
      (match vs.temperature_celsius with
       | some v => ["Tax: " ++ renderQ v ++ "°C"]
       | none => []) ++
      (match vs.oxygen_saturation with
       | some v => ["SpO2: " ++ toString v ++ "%"]
       | none => []) ++
      (match vs.pain_scale with
       | some v => ["Dor: " ++ toString v ++ "/10"]
       | none => []) ++
      (match vs.weight_kg with
       | some v => ["Peso: " ++ renderQ v ++ " kg"]
       | none => []) ++
      (match vs.height_cm with
       | some v => ["Altura: " ++ renderQ v ++ " cm"]
       | none => []) ++
      (match vs.weight_kg, vs.height_cm with
       | some w, some h =>
         let height_m := h / 100
         let imc := w / (height_m * height_m)
         ["IMC: " ++ format1f imc ++ " kg/m²"]
       | _, _ => [])
    let content := if parts ≠ [] then String.intercalate " | " parts
                   else "Não informados"
    ⟨"Sinais Vitais", "vital_signs", content, 3⟩

/-- Medication de-duplication loop of _build_background_section:
returns (unique_med_lines, duplicate_names). -/
def dedupMedications (meds : List Medication) : List String × List String :=
  let step := fun (st : List String × List String × List String)
      (med : Medication) =>
    let seen := st.1
    let uniq := st.2.1
    let dups := st.2.2
    let key := pyLower med.active_ingredient
    if key ∉ seen then
      let freq_str := match med.frequency with
        | some f => f
        | none => ""
      (key :: seen,
       uniq ++ [pyStrip (med.active_ingredient ++ " " ++ med.dosage ++ " " ++
                  freq_str)],
       dups)
    else
      (seen, uniq, dups ++ [med.active_ingredient])
  let r := meds.foldl step ([], [], [])
  (r.2.1, r.2.2)

/-- Severity label map of _build_background_section. -/
def severityLabel (s : String) : String :=
  if s = "mild" then "leve"
  else if s = "moderate" then "moderada"
  else if s = "severe" then "GRAVE"
  else if s = "life_threatening" then "RISCO DE VIDA"
  else s

/-- RuleBasedSummarizer._build_background_section; also returns the
warnings it records, in the order the source records them. -/
def buildBackgroundSection (c : ConsultationCreate) :
    SummarySection × List ConsultationWarning :=
  let allergyPart : List String :=
    if c.allergies ≠ [] then
      let allergy_items := c.allergies.map (fun a =>
        a.allergen ++ " (" ++ severityLabel a.severity ++ ") " ++
          (if a.confirmed then "✓" else "?"))
      ["⚠️ ALERGIAS: " ++ String.intercalate "; " allergy_items]
    else ["Alergias: Não informadas"]
  let medsPart : List String × List ConsultationWarning :=
    if c.current_medications ≠ [] then
      let r := dedupMedications c.current_medications
      let w := if r.2 ≠ [] then [duplicateWarning "current_medications" r.2]
               else []
      (["Medicamentos em uso: " ++ String.intercalate "; " r.1], w)
    else (["Medicamentos em uso: Nenhum informado"], [])
  let pastPart : List String × List ConsultationWarning :=
    if c.past_medical_history ≠ [] then
      let r := TextProcessor.removeDuplicates c.past_medical_history
      let w := if r.2 ≠ [] then [duplicateWarning "past_medical_history" r.2]
               else []
      (["Antecedentes pessoais: " ++ String.intercalate "; " r.1], w)
    else (["Antecedentes pessoais: Não informados"], [])
  let familyPart : List String × List ConsultationWarning :=
    if c.family_history ≠ [] then
      let r := TextProcessor.removeDuplicates c.family_history
      let w := if r.2 ≠ [] then [duplicateWarning "family_history" r.2]
               else []
      (["Antecedentes familiares: " ++ String.intercalate "; " r.1], w)
    else ([], [])
  let socialPart : List String × List ConsultationWarning :=
    match c.social_history with
    | some sh =>
      if sh ≠ "" then
        let r := TextProcessor.truncate (some sh) 500
        (["História social: " ++ r.1],
         if r.2 then [truncationWarning "social_history" 500] else [])
      else ([], [])
    | none => ([], [])
  let parts := allergyPart ++ medsPart.1 ++ pastPart.1 ++ familyPart.1 ++
    socialPart.1
  (⟨"Antecedentes e Segurança", "background",
     String.intercalate "\n" parts, 4⟩,
   medsPart.2 ++ pastPart.2 ++ familyPart.2 ++ socialPart.2)

/-- RuleBasedSummarizer._build_physical_exam_section. -/
def buildPhysicalExamSection (c : ConsultationCreate) :
    SummarySection × List ConsultationWarning :=
  let exam := match c.physical_examination with
    | some e => e
    | none => ""
  let r := TextProcessor.truncate (some exam) LIMIT_EXAM
  let w := if r.2 then [truncationWarning "physical_examination" LIMIT_EXAM]
           else []
  let normalized := TextProcessor.normalizeWhitespace (some r.1)
  let content := if normalized ≠ "" then normalized else "Não realizado"
  (⟨"Exame Físico", "physical_exam", content, 5⟩, w)

/-- RuleBasedSummarizer._build_assessment_section. -/
def buildAssessmentSection (today : Date) (c : ConsultationCreate) :
    SummarySection × List ConsultationWarning :=
  let parts :=
    [ "Consulta de " ++ (c.consultation_type.replace "_" " "),
      "realizada em " ++ TextProcessor.formatDateBr c.consultation_date ++
        "." ]
  let age := TextProcessor.calculateAge today c.patient.birth_date
  let parts := parts ++
    (if age < 18 then ["Paciente pediátrico (" ++ toString age ++ " anos)."]
     else if age ≥ 65 then ["Paciente idoso (" ++ toString age ++ " anos)."]
     else [])
  let parts := parts ++
    (if c.patient.is_pregnant then
      let weeks := match c.patient.gestational_weeks with
        | some w => toString w
        | none => "None"
      ["Gestante de " ++ weeks ++ " semanas."]
     else [])
  let parts := parts ++
    (if c.allergies ≠ [] then
      let severe := c.allergies.filter
        (fun a => a.severity = "severe" || a.severity = "life_threatening")
      if severe ≠ [] then
        ["ATENÇÃO: " ++ toString severe.length ++
          " alergia(s) grave(s) documentada(s)."]
      else []
     else [])
  let notesPart : List String × List ConsultationWarning :=
    if strTruthy c.additional_notes then
      let r := TextProcessor.truncate c.additional_notes LIMIT_NOTES
      let w := if r.2 then [truncationWarning "additional_notes" LIMIT_NOTES]
               else []
      (["Observações: " ++ r.1], w)
    else ([], [])
  let parts := parts ++ notesPart.1
  (⟨"Avaliação", "assessment", String.intercalate " " parts, 6⟩, notesPart.2)

/-- RuleBasedSummarizer._build_plan_section. -/
def buildPlanSection (c : ConsultationCreate) :
    SummarySection × List ConsultationWarning :=
  let plan := match c.treatment_plan with
    | some p => p
    | none => ""
  let r := TextProcessor.truncate (some plan) LIMIT_PLAN
  let w := if r.2 then [truncationWarning "treatment_plan" LIMIT_PLAN] else []
  let normalized := TextProcessor.normalizeWhitespace (some r.1)
  let content := if normalized ≠ "" then normalized else "Não definido"
  (⟨"Plano", "plan", content, 7⟩, w)

/-- Stable insertion into an order-sorted list (equal keys keep their
relative order, as Python sorted does). -/
def insertByOrder (sec : SummarySection) :
    List SummarySection → List SummarySection
  | [] => [sec]
  | t :: ts =>
    if t.order ≤ sec.order then t :: insertByOrder sec ts
    else sec :: t :: ts

/-- Python sorted(sections, key=order): stable ascending sort. -/
def sortByOrder (l : List SummarySection) : List SummarySection :=
  l.foldl (fun acc s => insertByOrder s acc) []

/-- The header/content/blank triple join of _build_full_text, before the
final strip and length check. -/
def joinSections (sections : List SummarySection) : String :=
  String.intercalate "\n"
    ((sortByOrder sections).flatMap (fun s =>
      ["=== " ++ pyUpper s.title ++ " ===", s.content, ""]))

/-- RuleBasedSummarizer._build_full_text; also returns the truncation
warning it may record. -/
def buildFullText (sections : List SummarySection) :
    String × List ConsultationWarning :=
  let full_text := pyStrip (joinSections sections)
  if full_text.length > LIMIT_FULL then
    (pyTake full_text (LIMIT_FULL - 3) ++ "...",
     [truncationWarning "full_summary" LIMIT_FULL])
  else (full_text, [])

/-- RuleBasedSummarizer._generate_sections together with the warnings the
section builders record, in recording order. -/
def generateSections (today : Date) (c : ConsultationCreate) :
    List SummarySection × List ConsultationWarning :=
  let ident := buildIdentificationSection today c
  let complaint := buildComplaintSection c
  let vital : List SummarySection :=
    match c.vital_signs with
    | some _ => [buildVitalSignsSection c]
    | none => []
  let background := buildBackgroundSection c
  let physical : List SummarySection × List ConsultationWarning :=
    if strTruthy c.physical_examination then
      let r := buildPhysicalExamSection c
      ([r.1], r.2)
    else ([], [])
  let assessment := buildAssessmentSection today c
  let plan : List SummarySection × List ConsultationWarning :=
    if strTruthy c.treatment_plan then
      let r := buildPlanSection c
      ([r.1], r.2)
    else ([], [])
  ([ident, complaint.1] ++ vital ++ [background.1] ++ physical.1 ++
     [assessment.1] ++ plan.1,
   complaint.2 ++ background.2 ++ physical.2 ++ assessment.2 ++ plan.2)

/-- RuleBasedSummarizer.summarize. -/
def summarize (today : Date) (c : ConsultationCreate) : SummarizerResult :=
  let clinical_warnings := ClinicalValidator.validate today c
  let gen := generateSections today c
  let ft := buildFullText gen.1
  ⟨gen.1, ft.1, clinical_warnings ++ gen.2 ++ ft.2, "rule_based"⟩

end RuleBased

/-! ### app/services/summarizers/llm_based.py LLMBasedSummarizer

The provider integration (google-generativeai) is outside the repository;
its observable outcomes (library import failure, initialization failure,
call exception/timeout, empty response, response text) enter the model as
an explicit environment.  json.loads is the Python standard library: its
outcome is modelled as `Except String Json` over a JSON value type, and
the repository's own parsing logic starts from that value, exactly as
`_parse_response` starts from `data`. -/

/-- A decoded JSON value (numbers restricted to integers; no claim
depends on fractional JSON numbers). -/
inductive Json where
  | null
  | bool (b : Bool)
  | num (n : Int)
  | str (s : String)
  | arr (items : List Json)
  | obj (fields : List (String × Json))

namespace LLMBased

/-- Substring test on char lists (Python `in` for str). -/
def isSubL : List Char → List Char → Bool
  | pat, [] => pat.isEmpty
  | pat, c :: rest => pat.isPrefixOf (c :: rest) || isSubL pat rest

mutual
/-- Python repr() of a decoded JSON value. -/
def pyRepr : Json → String
  | .null => "None"
  | .bool true => "True"
  | .bool false => "False"
  | .num n => toString n
  | .str s => "\x27" ++ s ++ "\x27"
  | .arr items => "[" ++ String.intercalate ", " (pyReprList items) ++ "]"
  | .obj fields =>
    "\x7b" ++ String.intercalate ", " (pyReprFields fields) ++ "\x7d"
/-- repr() mapped over list elements. -/
def pyReprList : List Json → List String
  | [] => []
  | j :: rest => pyRepr j :: pyReprList rest
/-- repr() of dict key/value pairs. -/
def pyReprFields : List (String × Json) → List String
  | [] => []
  | kv :: rest =>
    ("\x27" ++ kv.1 ++ "\x27: " ++ pyRepr kv.2) :: pyReprFields rest
end

/-- Python str() of a decoded JSON value. -/
def pyStrOf : Json → String
  | .str s => s
  | j => pyRepr j

/-- Python int() of a decoded JSON value (may raise). -/
def pyIntOf : Json → Except String Int
  | .num n => .ok n
  | .bool true => .ok 1
  | .bool false => .ok 0
  | .str s =>
    let t := pyStrip s
    let core := match t.data with
      | '+' :: ds => ds
      | '-' :: ds => ds
      | ds => ds
    if core ≠ [] ∧ core.all (fun c => c.isDigit) then
      match t.toInt? with
      | some n => .ok n
      | none => .error ("invalid literal for int() with base 10: " ++ s)
    else .error ("invalid literal for int() with base 10: " ++ s)
  | .null => .error "int() argument must not be NoneType"
  | .arr _ => .error "int() argument must not be list"
  | .obj _ => .error "int() argument must not be dict"

/-- Dictionary lookup on a JSON object field list. -/
def jGet (fields : List (String × Json)) (key : String) : Option Json :=
  (fields.find? (fun p => p.1 = key)).map (fun p => p.2)

/-- Outcome of the `all(k in section_data for k in (...))` membership
test on one element of data["sections"], with Python semantics per
runtime type. -/
inductive ElemCheck where
  | complete (fields : List (String × Json))
  | incomplete
  | typeError (message : String)

/-- Equality test `"key" == element` used by `in` on lists. -/
def isStrElem (s : String) : Json → Bool
  | .str t => t = s
  | _ => false

/-- The membership test of _parse_response on one section element. -/
def checkElem : Json → ElemCheck
  | .obj fields =>
    if (jGet fields "title").isSome ∧ (jGet fields "code").isSome ∧
        (jGet fields "content").isSome then
      .complete fields
    else .incomplete
  | .str s =>
    -- `"title" in s` is a substring test; when all three hit, the later
    -- s["title"] indexing raises TypeError.
    if (isSubL "title".data s.data) ∧ (isSubL "code".data s.data) ∧
        (isSubL "content".data s.data) then
      .typeError "string indices must be integers"
    else .incomplete
  | .arr items =>
    if (items.any (isStrElem "title")) ∧ (items.any (isStrElem "code")) ∧
        (items.any (isStrElem "content")) then
      .typeError "list indices must be integers or slices, not str"
    else .incomplete
  | .null => .typeError "argument of type NoneType is not iterable"
  | .bool _ => .typeError "argument of type bool is not iterable"
  | .num _ => .typeError "argument of type int is not iterable"

/-- The LLM_SECTION_INCOMPLETE warning of _parse_response. -/
def incompleteWarning (idx : Nat) : ConsultationWarning :=
  ⟨"LLM_SECTION_INCOMPLETE", .low,
    "Seção " ++ toString idx ++ " incompleta, ignorada", none, none⟩

/-- Builds one SummarySection from a complete section object; int(order)
may raise, which the source wraps into a generic parse LLMError. -/
def buildSection (idx : Nat) (fields : List (String × Json)) :
    Except String SummarySection :=
  let title := pyTake (pyStrOf ((jGet fields "title").getD .null)) 100
  let code :=
    (pyLower (pyTake (pyStrOf ((jGet fields "code").getD .null)) 50)).replace
      " " "_"
  let content := pyTake (pyStrOf ((jGet fields "content").getD .null)) 3000
  match jGet fields "order" with
  | none => .ok ⟨title, code, content, ((idx : Int) + 1)⟩
  | some v =>
    match pyIntOf v with
    | .ok n => .ok ⟨title, code, content, n⟩
    | .error e => .error ("Erro no parse: " ++ e)

/-- The section loop of _parse_response: accumulates warnings for
incomplete elements and sections for complete ones; a TypeError or an
int() failure aborts with the generic parse LLMError message. -/
def parseLoop : List Json → Nat →
    List ConsultationWarning × Except String (List SummarySection)
  | [], _ => ([], .ok [])
  | e :: rest, idx =>
    match checkElem e with
    | .complete fields =>
      (match buildSection idx fields with
       | .ok sec =>
         let r := parseLoop rest (idx + 1)
         (r.1, match r.2 with
           | .ok secs => .ok (sec :: secs)
           | .error m => .error m)
       | .error m => ([], .error m))
    | .incomplete =>
      let r := parseLoop rest (idx + 1)
      (incompleteWarning idx :: r.1, r.2)
    | .typeError msg => ([], .error ("Erro no parse: " ++ msg))

/-- Elements enumerate(data["sections"]) iterates over, per the Python
runtime type of the value (strings yield their characters, dicts their
keys); non-iterables raise. -/
def sectionsElems : Json → Except String (List Json)
  | .arr items => .ok items
  | .str s => .ok (s.data.map (fun ch => Json.str (String.mk [ch])))
  | .obj fields => .ok (fields.map (fun kv => Json.str kv.1))
  | .null => .error "Erro no parse: \x27NoneType\x27 object is not iterable"
  | .bool _ => .error "Erro no parse: \x27bool\x27 object is not iterable"
  | .num _ => .error "Erro no parse: \x27int\x27 object is not iterable"

/-- LLMBasedSummarizer._parse_response, from the json.loads outcome.
Returns the warnings recorded into self._warnings and either the parsed
sections or the str() of the raised LLMError. -/
def parseResponse (decoded : Except String Json) :
    List ConsultationWarning × Except String (List SummarySection) :=
  match decoded with
  | .error _ => ([], .error "Resposta não é JSON válido")
  | .ok j =>
    match j with
    | .obj fields =>
      (match jGet fields "sections" with
       | none => ([], .error "Formato de resposta inválido")
       | some v =>
         match sectionsElems v with
         | .error m => ([], .error m)
         | .ok elems =>
           let r := parseLoop elems 0
           (r.1, match r.2 with
             | .error m => .error m
             | .ok [] => .error "Nenhuma seção válida na resposta"
             | .ok secs => .ok secs))
    | _ => ([], .error "Formato de resposta inválido")

/-! #### Guardrails -/

/-- The redaction placeholder of _apply_guardrails. -/
def PLACEHOLDER : List Char := "[REMOVIDO]".data

/-- The forbidden terms found in one section content
(`term in content_lower`). -/
def foundTerms (content : String) : List String :=
  FORBIDDEN_DIAGNOSTIC_TERMS.filter
    (fun term => isSubL term.data (lowerL content.data))

/-- re.sub with re.IGNORECASE for one literal term: leftmost,
non-overlapping, all occurrences replaced by the placeholder. -/
def replaceCI (t : List Char) : List Char → List Char
  | [] => []
  | c :: rest =>
    if t ≠ [] ∧ (lowerL t).isPrefixOf (lowerL (c :: rest)) then
      PLACEHOLDER ++ replaceCI t ((c :: rest).drop t.length)
    else
      c :: replaceCI t rest
termination_by s => s.length
decreasing_by
  · simp only [List.length_cons, List.length_drop]
    have ht : t.length ≥ 1 := by
      rcases t with _ | ⟨x, xs⟩
      · simp at *
      · simp
    omega
  · simp

/-- The content-cleaning loop of _apply_guardrails for one section. -/
def cleanContent (content : String) (found : List String) : String :=
  found.foldl
    (fun acc term => String.mk (replaceCI term.data acc.data)) content

/-- The per-section LLM_DIAGNOSTIC_TERMS_DETECTED warning. -/
def termsWarning (sec : SummarySection) (found : List String) :
    ConsultationWarning :=
  ⟨"LLM_DIAGNOSTIC_TERMS_DETECTED", .high,
    "Termos diagnósticos detectados na seção \x27" ++ sec.title ++
      "\x27: " ++ String.intercalate ", " (found.take 3),
    some ("sections." ++ sec.code), none⟩

/-- The aggregate LLM_GUARDRAILS_TRIGGERED warning. -/
def aggregateWarning : ConsultationWarning :=
  ⟨"LLM_GUARDRAILS_TRIGGERED", .medium,
    "Guardrails acionados - termos diagnósticos foram removidos",
    none, none⟩

/-- _apply_guardrails on one section: the possibly rewritten section and
its warning, if any. -/
def guardSection (sec : SummarySection) :
    SummarySection × List ConsultationWarning :=
  let found := foundTerms sec.content
  if found ≠ [] then
    ({ sec with content := cleanContent sec.content found },
     [termsWarning sec found])
  else (sec, [])

/-- LLMBasedSummarizer._apply_guardrails. -/
def applyGuardrails (sections : List SummarySection) :
    List SummarySection × List ConsultationWarning :=
  let results := sections.map guardSection
  let filtered := results.map (fun r => r.1)
  let sectionWarnings := results.flatMap (fun r => r.2)
  let violations_found := sections.any (fun s => foundTerms s.content ≠ [])
  (filtered,
   sectionWarnings ++ (if violations_found then [aggregateWarning] else []))

/-- LLMBasedSummarizer._build_full_text (identical join to the rule-based
one, without the full_summary length check). -/
def buildFullText (sections : List SummarySection) : String :=
  pyStrip (RuleBased.joinSections sections)

/-! #### The summarize pipeline over an explicit provider environment -/

/-- Failure modes of _lazy_init. -/
inductive InitFailure where
  | importError (detail : String)
  | initError (detail : String)

/-- str() of the LLMError raised by _lazy_init. -/
def lazyInitMsg : InitFailure → String
  | .importError _ => "Biblioteca google-generativeai não instalada"
  | .initError _ => "Falha ao inicializar Gemini"

/-- Outcome of the provider call in _generate_with_llm. -/
inductive ProviderCall where
  | exn (detail : String)
  | emptyResponse
  | response (decoded : Except String Json)

/-- The provider-side environment of one summarize call. -/
structure LLMEnv where
  enabled : Bool
  initFailure : Option InitFailure
  call : ProviderCall

/-- The LLM_FALLBACK_ACTIVATED warning of _execute_fallback. -/
def fallbackWarning (reason : String) : ConsultationWarning :=
  ⟨"LLM_FALLBACK_ACTIVATED", .info,
    "Fallback para rule_based ativado: " ++ pyTake reason 100, none, none⟩

/-- LLMBasedSummarizer._execute_fallback: preWarnings are the warnings
already recorded into self._warnings before the failure. -/
def executeFallback (fb : ConsultationCreate → SummarizerResult)
    (c : ConsultationCreate) (preWarnings : List ConsultationWarning)
    (reason : String) : SummarizerResult :=
  let fr := fb c
  ⟨fr.sections, fr.full_text,
    (preWarnings ++ [fallbackWarning reason]) ++ fr.warnings,
    "llm_fallback"⟩

/-- LLMBasedSummarizer.summarize: the full pipeline with automatic
fallback on any failure. -/
def summarize (env : LLMEnv)
    (fb : ConsultationCreate → SummarizerResult)
    (c : ConsultationCreate) : SummarizerResult :=
  if !env.enabled then
    executeFallback fb c [] "LLM não configurado"
  else
    match env.initFailure with
    | some f => executeFallback fb c [] (lazyInitMsg f)
    | none =>
      match env.call with
      | .exn d => executeFallback fb c [] ("Erro na geração: " ++ d)
      | .emptyResponse => executeFallback fb c [] "Resposta vazia do LLM"
      | .response decoded =>
        let pr := parseResponse decoded
        match pr.2 with
        | .error msg => executeFallback fb c pr.1 msg
        | .ok sections =>
          let g := applyGuardrails sections
          ⟨g.1, buildFullText g.1, pr.1 ++ g.2, "llm_based"⟩

end LLMBased

/-! ### Concrete sample data for witnesses and counterexamples -/

/-- A minimal structurally valid patient. -/
def samplePatient : Patient :=
  ⟨"Ana Lima", "123.456.789-00", ⟨1990, 1, 1⟩, .female, none, false, none⟩

/-- A fixed current date for the runs below. -/
def sampleToday : Date := ⟨2024, 6, 1⟩

/-- A minimal structurally valid consultation record. -/
def sampleConsultation : ConsultationCreate where
  patient := samplePatient
  consultation_date := ⟨2024, 6, 1⟩
  consultation_type := "routine"
  facility_name := none
  chief_complaint := "Dor de cabeça"
  history_present_illness := none
  vital_signs := none
  physical_examination := none
  current_medications := []
  allergies := []
  past_medical_history := []
  family_history := []
  social_history := none
  professional_name := "Dra. Maria Souza"
  professional_council_id := none
  specialty := none
  treatment_plan := none
  additional_notes := none

/-- Vital signs with systolic 80 and diastolic 90 only. -/
def vs8090 : VitalSigns :=
  { VitalSigns.allNone with systolic_bp := some 80, diastolic_bp := some 90 }

/-- The fixed section catalog (constants.py SUMMARY_SECTIONS) as
(code, order) pairs. -/
def SUMMARY_SECTIONS_CATALOG : List (String × Int) :=
  [ ("identification", 1), ("complaint_history", 2), ("vital_signs", 3),
    ("background", 4), ("physical_exam", 5), ("assessment", 6),
    ("plan", 7) ]

/-! ### Concrete inputs and auxiliary predicates used by the theorems -/

/-- The middle of the counterexample narrative. -/
def c7mid : List Char :=
  List.replicate 1995 'a' ++ ' ' :: List.replicate 3 'b'

/-- A 2001-character pydantic-stripped narrative whose 1997-character
prefix ends in a blank. -/
def c7narrative : String := ⟨'a' :: (c7mid ++ ['b'])⟩

/-- An all-letter 2001-character narrative. -/
def c7plain : String := ⟨'a' :: (List.replicate 1999 'a' ++ ['a'])⟩

/-- The sample record with a given history narrative. -/
def withHpi (s : String) : ConsultationCreate :=
  { sampleConsultation with history_present_illness := some s }

/-- The pydantic str_strip_whitespace guarantee for an optional string
field of ConsultationCreate. -/
def StrippedOpt : Option String → Prop
  | none => True
  | some s => pyStrip s = s

/-- The sample record with an all-null vital-signs object. -/
def vitalsOnlyRecord : ConsultationCreate :=
  { sampleConsultation with vital_signs := some VitalSigns.allNone }

/-- A reply whose first section object is incomplete and whose second is
complete. -/
def c9reply : Json :=
  .obj [("sections", .arr
    [ .obj [("title", .str "t")],
      .obj [("title", .str "T"), ("code", .str "C"),
        ("content", .str "x")] ])]

/-- A reply whose only section object is empty: the parse records an
incomplete-section warning and then fails with zero usable sections. -/
def c1reply : Json := .obj [("sections", .arr [.obj []])]

/-- The environment delivering that reply. -/
def c1env : LLMBased.LLMEnv := ⟨true, none, .response (.ok c1reply)⟩

/-- An environment with the provider disabled. -/
def c1disabledEnv : LLMBased.LLMEnv :=
  ⟨false, none, LLMBased.ProviderCall.emptyResponse⟩

/-- The facts about each forbidden term that the replacement analysis
uses: non-empty, already lowercase, bracket-free, and not a substring of
the lowered placeholder. -/
@[reducible] def TermOK (tm : String) : Prop :=
  tm.data ≠ [] ∧ lowerL tm.data = tm.data ∧
  '[' ∉ tm.data ∧ ']' ∉ tm.data ∧
  LLMBased.isSubL tm.data (lowerL LLMBased.PLACEHOLDER) = false

/-- Fuel-indexed structural version of replaceCI, used to evaluate it on
concrete inputs. -/
def replCIF (t : List Char) : Nat → List Char → List Char
  | _, [] => []
  | 0, s => s
  | Nat.succ n, c :: rest =>
    if t ≠ [] ∧ (lowerL t).isPrefixOf (lowerL (c :: rest)) then
      LLMBased.PLACEHOLDER ++ replCIF t n ((c :: rest).drop t.length)
    else c :: replCIF t n rest

/-! ## General helper lemmas -/

/-- dropWhile never lengthens a list. -/
theorem TextProcessor.dropWhileLenLe (p : Char → Bool) (l : List Char) :
    (l.dropWhile p).length ≤ l.length := by
  induction l with
  | nil => simp [List.dropWhile]
  | cons c t ih =>
    by_cases h : p c
    · simp [List.dropWhile, h]; omega
    · simp [List.dropWhile, h]

/-- Stripping never lengthens a string. -/
theorem stripLenLe (s : String) : (pyStrip s).length ≤ s.length := by
  show (stripL s.data).length ≤ s.data.length
  unfold stripL
  calc ((s.data.dropWhile isPySpace).reverse.dropWhile isPySpace).reverse.length
      = ((s.data.dropWhile isPySpace).reverse.dropWhile isPySpace).length := by
        rw [List.length_reverse]
    _ ≤ (s.data.dropWhile isPySpace).reverse.length :=
        TextProcessor.dropWhileLenLe _ _
    _ = (s.data.dropWhile isPySpace).length := by rw [List.length_reverse]
    _ ≤ s.data.length := TextProcessor.dropWhileLenLe _ _

/-! ## Claim C8 -/

/-- Claim C8, counterexample: the oxygen_saturation entry of the static
reference table has max_normal = max_critical = 100, so the strict
ordering min_critical < min_normal < max_normal < max_critical claimed
for all six vital signs fails at this entry. -/
theorem c8_strict_ordering_counterexample :
    ("oxygen_saturation",
      (⟨95, 100, 90, 100, "%"⟩ : VitalSignRange)) ∈ VITAL_SIGNS_RANGES ∧
    ¬ ((⟨95, 100, 90, 100, "%"⟩ : VitalSignRange).max_normal <
        (⟨95, 100, 90, 100, "%"⟩ : VitalSignRange).max_critical) := by
  decide

/-- Claim C8, amended: every entry of the six-sign reference table
satisfies min_critical < min_normal < max_normal ≤ max_critical, and the
last inequality is strict for every sign except oxygen_saturation, whose
max_normal equals its max_critical (both 100). -/
theorem c8_range_ordering (p : String × VitalSignRange)
    (hmem : p ∈ VITAL_SIGNS_RANGES) :
    p.2.min_critical < p.2.min_normal ∧
    p.2.min_normal < p.2.max_normal ∧
    p.2.max_normal ≤ p.2.max_critical ∧
    (p.1 ≠ "oxygen_saturation" → p.2.max_normal < p.2.max_critical) := by
  fin_cases hmem <;> refine ⟨by norm_num, by norm_num, by norm_num, ?_⟩ <;>
    intro h <;> first
      | exact absurd rfl h
      | norm_num

/-- Witness for c8_range_ordering at the systolic entry. -/
theorem c8_range_ordering_witness :
    ("systolic_bp",
      (⟨90, 120, 70, 180, "mmHg"⟩ : VitalSignRange)) ∈ VITAL_SIGNS_RANGES ∧
    (("systolic_bp",
        (⟨90, 120, 70, 180, "mmHg"⟩ : VitalSignRange)).2.min_critical <
      ("systolic_bp",
        (⟨90, 120, 70, 180, "mmHg"⟩ : VitalSignRange)).2.min_normal) :=
  ⟨by decide,
    (c8_range_ordering ("systolic_bp", ⟨90, 120, 70, 180, "mmHg"⟩)
      (by decide)).1⟩

/-! ## Claim C2 -/

/-- Claim C2: the rule-based generator is a pure function of the record
and the current date, so two independent runs on the same structurally
valid record return identical sections, byte-identical full_text and
identical warnings (content and order); totality of the Lean function
embodies that summarize never raises on such a record. -/
theorem c2_rule_based_deterministic (today : Date) (c : ConsultationCreate)
    (r1 r2 : SummarizerResult)
    (h1 : r1 = RuleBased.summarize today c)
    (h2 : r2 = RuleBased.summarize today c) :
    r1.sections = r2.sections ∧ r1.full_text = r2.full_text ∧
    r1.warnings = r2.warnings ∧ r1.strategy_used = "rule_based" := by
  subst h1; subst h2
  exact ⟨rfl, rfl, rfl, rfl⟩

/-- Witness for c2_rule_based_deterministic on the sample record. -/
theorem c2_rule_based_deterministic_witness :
    (RuleBased.summarize sampleToday sampleConsultation).sections =
      (RuleBased.summarize sampleToday sampleConsultation).sections ∧
    (RuleBased.summarize sampleToday sampleConsultation).full_text =
      (RuleBased.summarize sampleToday sampleConsultation).full_text ∧
    (RuleBased.summarize sampleToday sampleConsultation).warnings =
      (RuleBased.summarize sampleToday sampleConsultation).warnings ∧
    (RuleBased.summarize sampleToday sampleConsultation).strategy_used =
      "rule_based" :=
  c2_rule_based_deterministic sampleToday sampleConsultation _ _ rfl rfl

/-! ## Claim C6 -/

/-- Claim C6: when both pressures are present the consistency check
emits BP_INCONSISTENT (high) whenever systolic ≤ diastolic,
PULSE_PRESSURE_LOW (medium) whenever the pulse pressure is below 25 and
PULSE_PRESSURE_HIGH (low) whenever it is above 60; and on systolic 80
with diastolic 90 it emits exactly one warning carrying the code
BP_INCONSISTENT, at level high. -/
theorem c6_bp_consistency (vs : VitalSigns) (s d : Int)
    (hs : vs.systolic_bp = some s) (hd : vs.diastolic_bp = some d) :
    (s ≤ d →
      ∃ w ∈ ClinicalValidator.validateBloodPressureConsistency (some vs),
        w.code = "BP_INCONSISTENT" ∧ w.level = .high) ∧
    (s - d < 25 →
      ∃ w ∈ ClinicalValidator.validateBloodPressureConsistency (some vs),
        w.code = "PULSE_PRESSURE_LOW" ∧ w.level = .medium) ∧
    (s - d > 60 →
      ∃ w ∈ ClinicalValidator.validateBloodPressureConsistency (some vs),
        w.code = "PULSE_PRESSURE_HIGH" ∧ w.level = .low) ∧
    ((ClinicalValidator.validateBloodPressureConsistency (some vs8090)).filter
        (fun w => w.code = "BP_INCONSISTENT")).map (fun w => w.level) =
      [WarningLevel.high] := by
  refine ⟨?_, ?_, ?_, by decide⟩ <;>
    simp only [ClinicalValidator.validateBloodPressureConsistency, hs, hd] <;>
    intro h
  · rw [if_pos h]
    exact ⟨_, List.mem_append_left _ (List.mem_singleton.mpr rfl), rfl, rfl⟩
  · rw [if_pos h]
    exact ⟨_, List.mem_append_right _ (List.mem_singleton.mpr rfl), rfl, rfl⟩
  · rw [if_neg (by omega : ¬ s - d < 25), if_pos h]
    exact ⟨_, List.mem_append_right _ (List.mem_singleton.mpr rfl), rfl, rfl⟩

/-- Witness for c6_bp_consistency at systolic 80, diastolic 90. -/
theorem c6_bp_consistency_witness :
    vs8090.systolic_bp = some 80 ∧ vs8090.diastolic_bp = some 90 ∧
    ((80 : Int) ≤ 90 →
      ∃ w ∈ ClinicalValidator.validateBloodPressureConsistency (some vs8090),
        w.code = "BP_INCONSISTENT" ∧ w.level = .high) :=
  ⟨by decide, by decide,
    (c6_bp_consistency vs8090 80 90 rfl rfl).1⟩

/-! ## Claim C3 -/

/-- Claim C3: the vital-sign range check follows the four-tier scheme
against each sign's reference range (below min_critical: CRITICAL_LOW at
high; from min_critical up to below min_normal: LOW at medium; within
normal bounds: nothing; above max_normal up to max_critical: HIGH at
low; above max_critical: CRITICAL_HIGH at high), and in particular for
an integer systolic value: below 70 critical-low, 70 to 89 low, 90 to
120 no warning, 121 to 180 high at level low, and 181 and above
critical-high at level high. -/
theorem c3_vital_range_tiering :
    (∀ (field label : String) (rg : VitalSignRange) (v : PyNum),
      rangesLookup field = some rg →
      (ClinicalValidator.checkVitalRange field v label).map
          (fun w => (w.code, w.level)) =
        (if v.toQ < rg.min_critical then
          [(pyUpper field ++ "_CRITICAL_LOW", WarningLevel.high)]
         else if v.toQ < rg.min_normal then
          [(pyUpper field ++ "_LOW", WarningLevel.medium)]
         else if v.toQ > rg.max_critical then
          [(pyUpper field ++ "_CRITICAL_HIGH", WarningLevel.high)]
         else if v.toQ > rg.max_normal then
          [(pyUpper field ++ "_HIGH", WarningLevel.low)]
         else [])) ∧
    (∀ (v : Int) (label : String),
      (v < 70 →
        (ClinicalValidator.checkVitalRange "systolic_bp" (PyNum.i v)
            label).map (fun w => (w.code, w.level)) =
          [("SYSTOLIC_BP_CRITICAL_LOW", WarningLevel.high)]) ∧
      (70 ≤ v ∧ v < 90 →
        (ClinicalValidator.checkVitalRange "systolic_bp" (PyNum.i v)
            label).map (fun w => (w.code, w.level)) =
          [("SYSTOLIC_BP_LOW", WarningLevel.medium)]) ∧
      (90 ≤ v ∧ v ≤ 120 →
        (ClinicalValidator.checkVitalRange "systolic_bp" (PyNum.i v)
            label).map (fun w => (w.code, w.level)) = []) ∧
      (121 ≤ v ∧ v ≤ 180 →
        (ClinicalValidator.checkVitalRange "systolic_bp" (PyNum.i v)
            label).map (fun w => (w.code, w.level)) =
          [("SYSTOLIC_BP_HIGH", WarningLevel.low)]) ∧
      (181 ≤ v →
        (ClinicalValidator.checkVitalRange "systolic_bp" (PyNum.i v)
            label).map (fun w => (w.code, w.level)) =
          [("SYSTOLIC_BP_CRITICAL_HIGH", WarningLevel.high)])) := by
  have general : ∀ (field label : String) (rg : VitalSignRange) (v : PyNum),
      rangesLookup field = some rg →
      (ClinicalValidator.checkVitalRange field v label).map
          (fun w => (w.code, w.level)) =
        (if v.toQ < rg.min_critical then
          [(pyUpper field ++ "_CRITICAL_LOW", WarningLevel.high)]
         else if v.toQ < rg.min_normal then
          [(pyUpper field ++ "_LOW", WarningLevel.medium)]
         else if v.toQ > rg.max_critical then
          [(pyUpper field ++ "_CRITICAL_HIGH", WarningLevel.high)]
         else if v.toQ > rg.max_normal then
          [(pyUpper field ++ "_HIGH", WarningLevel.low)]
         else []) := by
    intro field label rg v hlook
    simp only [ClinicalValidator.checkVitalRange, hlook]
    split_ifs <;> simp [ClinicalValidator.mkWarning]
  refine ⟨general, ?_⟩
  intro v label
  have hsys : rangesLookup "systolic_bp" =
      some ⟨90, 120, 70, 180, "mmHg"⟩ := by decide
  have base := general "systolic_bp" label ⟨90, 120, 70, 180, "mmHg"⟩
    (PyNum.i v) hsys
  simp only
    [ show ((⟨90, 120, 70, 180, "mmHg"⟩ : VitalSignRange)).min_critical =
        (70 : Rat) from rfl,
      show ((⟨90, 120, 70, 180, "mmHg"⟩ : VitalSignRange)).min_normal =
        (90 : Rat) from rfl,
      show ((⟨90, 120, 70, 180, "mmHg"⟩ : VitalSignRange)).max_critical =
        (180 : Rat) from rfl,
      show ((⟨90, 120, 70, 180, "mmHg"⟩ : VitalSignRange)).max_normal =
        (120 : Rat) from rfl,
      show (PyNum.i v).toQ = (v : Rat) from rfl,
      show pyUpper "systolic_bp" ++ "_CRITICAL_LOW" =
        "SYSTOLIC_BP_CRITICAL_LOW" from by decide,
      show pyUpper "systolic_bp" ++ "_LOW" = "SYSTOLIC_BP_LOW" from by decide,
      show pyUpper "systolic_bp" ++ "_CRITICAL_HIGH" =
        "SYSTOLIC_BP_CRITICAL_HIGH" from by decide,
      show pyUpper "systolic_bp" ++ "_HIGH" = "SYSTOLIC_BP_HIGH" from
        by decide ] at base
  refine ⟨?_, ?_, ?_, ?_, ?_⟩ <;> intro h
  · rw [base, if_pos (by exact_mod_cast h : (v : Rat) < 70)]
  · rw [base,
      if_neg (by exact_mod_cast (by omega : ¬ v < 70) : ¬ (v : Rat) < 70),
      if_pos (by exact_mod_cast (by omega : v < 90) : (v : Rat) < 90)]
  · rw [base,
      if_neg (by exact_mod_cast (by omega : ¬ v < 70) : ¬ (v : Rat) < 70),
      if_neg (by exact_mod_cast (by omega : ¬ v < 90) : ¬ (v : Rat) < 90),
      if_neg (by exact_mod_cast (by omega : ¬ v > 180) : ¬ (v : Rat) > 180),
      if_neg (by exact_mod_cast (by omega : ¬ v > 120) : ¬ (v : Rat) > 120)]
  · rw [base,
      if_neg (by exact_mod_cast (by omega : ¬ v < 70) : ¬ (v : Rat) < 70),
      if_neg (by exact_mod_cast (by omega : ¬ v < 90) : ¬ (v : Rat) < 90),
      if_neg (by exact_mod_cast (by omega : ¬ v > 180) : ¬ (v : Rat) > 180),
      if_pos (by exact_mod_cast (by omega : v > 120) : (v : Rat) > 120)]
  · rw [base,
      if_neg (by exact_mod_cast (by omega : ¬ v < 70) : ¬ (v : Rat) < 70),
      if_neg (by exact_mod_cast (by omega : ¬ v < 90) : ¬ (v : Rat) < 90),
      if_pos (by exact_mod_cast (by omega : v > 180) : (v : Rat) > 180)]

/-- Witness for c3_vital_range_tiering at a concrete lookup and value. -/
theorem c3_vital_range_tiering_witness :
    rangesLookup "systolic_bp" =
      some (⟨90, 120, 70, 180, "mmHg"⟩ : VitalSignRange) ∧
    (ClinicalValidator.checkVitalRange "systolic_bp" (PyNum.i 185)
        "Pressão sistólica").map (fun w => (w.code, w.level)) =
      [("SYSTOLIC_BP_CRITICAL_HIGH", WarningLevel.high)] := by
  refine ⟨by decide, ?_⟩
  have h := (c3_vital_range_tiering.2 185 "Pressão sistólica").2.2.2.2
    (by decide)
  exact h

/-! ## Claim C7 -/

/-- dropWhile is the identity when the head fails the predicate. -/
theorem dropWhileHeadFalse (p : Char → Bool) (c : Char) (t : List Char)
    (h : p c = false) : List.dropWhile p (c :: t) = c :: t := by
  simp [List.dropWhile_cons, h]

/-- strip is the identity on a list whose first and last characters are
not whitespace. -/
theorem stripLNoWsEnds (c1 c2 : Char) (mid : List Char)
    (h1 : isPySpace c1 = false) (h2 : isPySpace c2 = false) :
    stripL (c1 :: (mid ++ [c2])) = c1 :: (mid ++ [c2]) := by
  unfold stripL
  rw [dropWhileHeadFalse _ _ _ h1]
  have hrev : (c1 :: (mid ++ [c2])).reverse = c2 :: (mid.reverse ++ [c1]) := by
    simp
  rw [hrev, dropWhileHeadFalse _ _ _ h2, ← hrev, List.reverse_reverse]

/-- strip drops exactly one trailing space when the other end characters
are not whitespace. -/
theorem stripLOneTrailingWs (c1 c2 w : Char) (mid : List Char)
    (h1 : isPySpace c1 = false) (h2 : isPySpace c2 = false)
    (hw : isPySpace w = true) :
    stripL ((c1 :: (mid ++ [c2])) ++ [w]) = c1 :: (mid ++ [c2]) := by
  unfold stripL
  have hfront : List.dropWhile isPySpace ((c1 :: (mid ++ [c2])) ++ [w]) =
      (c1 :: (mid ++ [c2])) ++ [w] := by
    rw [List.cons_append, dropWhileHeadFalse _ _ _ h1]
  rw [hfront]
  have hrev : ((c1 :: (mid ++ [c2])) ++ [w]).reverse =
      w :: (c2 :: (mid.reverse ++ [c1])) := by
    simp
  rw [hrev]
  have hdw : List.dropWhile isPySpace (w :: (c2 :: (mid.reverse ++ [c1]))) =
      c2 :: (mid.reverse ++ [c1]) := by
    rw [List.dropWhile_cons, if_pos hw, dropWhileHeadFalse _ _ _ h2]
  rw [hdw]
  have hback : (c2 :: (mid.reverse ++ [c1])) =
      (c1 :: (mid ++ [c2])).reverse := by
    simp
  rw [hback, List.reverse_reverse]

/-- take over an append, split at the left operand's length. -/
theorem takeLenAppend {α : Type} (l₁ l₂ : List α) (n : Nat) :
    List.take (l₁.length + n) (l₁ ++ l₂) = l₁ ++ List.take n l₂ := by
  induction l₁ with
  | nil => simp
  | cons a t ih =>
    simp only [List.length_cons, List.cons_append]
    rw [show t.length + 1 + n = (t.length + n) + 1 by omega,
      List.take_succ_cons, ih]

/-- On a stripped over-long input, truncate strips the 1997-character
prefix and appends the suffix. -/
theorem truncateOfLong (s : String) (hstr : pyStrip s = s)
    (hlen : s.length > LIMIT_HPI) :
    TextProcessor.truncate (some s) LIMIT_HPI =
      (pyStrip (pyTake s 1997) ++ "...", true) := by
  have hne : s ≠ "" := by
    intro h
    rw [h] at hlen
    simp [LIMIT_HPI, String.length] at hlen
  show (if s = "" then ("", false)
    else
      let t := pyStrip s
      if t.length ≤ LIMIT_HPI then (t, false)
      else (pyStrip (pyTake t (LIMIT_HPI - "...".length)) ++ "...", true)) = _
  rw [if_neg hne]
  simp only [hstr]
  rw [if_neg (by simp only [LIMIT_HPI] at hlen ⊢; omega :
    ¬ s.length ≤ LIMIT_HPI)]
  rfl

/-- The counterexample narrative is stripped. -/
theorem c7narrativeStripped : pyStrip c7narrative = c7narrative := by
  show String.mk (stripL ('a' :: (c7mid ++ ['b']))) = _
  rewrite [stripLNoWsEnds 'a' 'b' c7mid (by decide) (by decide)]
  rfl

/-- The counterexample narrative has 2001 characters. -/
theorem c7narrativeLength : c7narrative.length = 2001 := by
  show ('a' :: (c7mid ++ ['b'])).length = 2001
  simp [c7mid]

/-- The 1997-character prefix of the counterexample narrative. -/
theorem c7takeEq : pyTake c7narrative 1997 =
    ⟨'a' :: (List.replicate 1995 'a' ++ [' '])⟩ := by
  show String.mk (List.take 1997 ('a' :: (c7mid ++ ['b']))) = _
  have h3 : List.take 1997 ('a' :: (c7mid ++ ['b'])) =
      'a' :: List.take 1996 (c7mid ++ ['b']) := by
    rewrite [show (1997 : Nat) = 1996 + 1 from rfl]
    exact List.take_succ_cons
  have h1 : c7mid ++ ['b'] =
      List.replicate 1995 'a' ++ (' ' :: (List.replicate 3 'b' ++ ['b'])) := by
    show (List.replicate 1995 'a' ++ ' ' :: List.replicate 3 'b') ++ ['b'] = _
    rewrite [List.append_assoc]
    rfl
  have h2 : List.take 1996
      (List.replicate 1995 'a' ++ (' ' :: (List.replicate 3 'b' ++ ['b']))) =
      List.replicate 1995 'a' ++ [' '] := by
    rewrite [show (1996 : Nat) = (List.replicate 1995 'a').length + 1 by simp]
    rewrite [takeLenAppend]
    rewrite [show (1 : Nat) = 0 + 1 from rfl, List.take_succ_cons,
      List.take_zero]
    rfl
  rewrite [h3, h1, h2]
  rfl

/-- Stripping that prefix removes its trailing blank. -/
theorem c7stripTakeEq : pyStrip (pyTake c7narrative 1997) =
    ⟨'a' :: (List.replicate 1994 'a' ++ ['a'])⟩ := by
  rewrite [c7takeEq]
  show String.mk (stripL ('a' :: (List.replicate 1995 'a' ++ [' ']))) = _
  have h4 : 'a' :: (List.replicate 1995 'a' ++ [' ']) =
      ('a' :: (List.replicate 1994 'a' ++ ['a'])) ++ [' '] := by
    rewrite [show (1995 : Nat) = 1994 + 1 from rfl, List.replicate_succ']
    simp
  rewrite [h4, stripLOneTrailingWs 'a' 'a' ' ' (List.replicate 1994 'a')
    (by decide) (by decide) (by decide)]
  rfl

/-- Truncating the counterexample narrative keeps only 1996 characters
before the suffix. -/
theorem c7narrativeTruncLen :
    (pyStrip (pyTake c7narrative 1997)).length = 1996 := by
  rewrite [c7stripTakeEq]
  show ('a' :: (List.replicate 1994 'a' ++ ['a'])).length = 1996
  simp

/-- Claim C7, counterexample: this pydantic-stripped 2001-character
narrative exceeds the 2000-character limit, is reported truncated, but
the truncated text has 1999 characters, not exactly 2000: the source
strips the sliced prefix again before appending the suffix. -/
theorem c7_exact_length_counterexample :
    pyStrip c7narrative = c7narrative ∧
    c7narrative.length = 2001 ∧
    (TextProcessor.truncate (some c7narrative) LIMIT_HPI).2 = true ∧
    (TextProcessor.truncate (some c7narrative) LIMIT_HPI).1.length = 1999 ∧
    (1999 : Nat) ≠ 2000 := by
  have htr := truncateOfLong c7narrative c7narrativeStripped
    (by rewrite [c7narrativeLength]; decide)
  refine ⟨c7narrativeStripped, c7narrativeLength, by rewrite [htr]; rfl,
    ?_, by decide⟩
  rewrite [htr]
  show (pyStrip (pyTake c7narrative 1997) ++ "...").length = 1999
  rewrite [String.length_append, c7narrativeTruncLen]
  rfl

/-- Claim C7, amended: for a pydantic-stripped history narrative longer
than the 2000-character limit, the generator records exactly one
TEXT_TRUNCATED warning at level info naming history_present_illness and
the limit 2000, and the truncated text is the stripped 1997-character
prefix plus the three-character suffix, hence at most 2000 characters
(exactly 2000 only when stripping that prefix removes nothing). -/
theorem c7_truncation (c : ConsultationCreate) (s : String)
    (hset : c.history_present_illness = some s)
    (hstr : pyStrip s = s) (hlen : s.length > LIMIT_HPI) :
    (RuleBased.buildComplaintSection c).2 =
      [RuleBased.truncationWarning "history_present_illness" 2000] ∧
    RuleBased.truncationWarning "history_present_illness" 2000 =
      ⟨"TEXT_TRUNCATED", .info,
        "Campo \x27history_present_illness\x27 truncado para 2000 caracteres",
        some "history_present_illness", some "2000"⟩ ∧
    (TextProcessor.truncate (some s) LIMIT_HPI).2 = true ∧
    (TextProcessor.truncate (some s) LIMIT_HPI).1 =
      pyStrip (pyTake s 1997) ++ "..." ∧
    (TextProcessor.truncate (some s) LIMIT_HPI).1.length =
      (pyStrip (pyTake s 1997)).length + 3 ∧
    (pyStrip (pyTake s 1997)).length ≤ 1997 := by
  have hne : s ≠ "" := by
    intro h
    rw [h] at hlen
    simp [LIMIT_HPI, String.length] at hlen
  have htr := truncateOfLong s hstr hlen
  refine ⟨?_, rfl, by rw [htr], by rw [htr], ?_, ?_⟩
  · simp only [RuleBased.buildComplaintSection, hset]
    rw [if_pos (by simp [strTruthy, hne] : strTruthy (some s) = true)]
    rw [htr]
    rfl
  · rw [htr]
    show (pyStrip (pyTake s 1997) ++ "...").length = _
    rw [String.length_append]
    rfl
  · have h1 : (pyStrip (pyTake s 1997)).length ≤ (pyTake s 1997).length :=
      stripLenLe _
    have h2 : (pyTake s 1997).length ≤ 1997 := by
      show (s.data.take 1997).length ≤ 1997
      rw [List.length_take]
      omega
    omega

/-- The plain witness narrative is stripped. -/
theorem c7plainStripped : pyStrip c7plain = c7plain := by
  show String.mk (stripL ('a' :: (List.replicate 1999 'a' ++ ['a']))) = _
  rw [stripLNoWsEnds 'a' 'a' (List.replicate 1999 'a') (by decide) (by decide)]
  rfl

/-- Witness for c7_truncation on a plain 2001-character narrative. -/
theorem c7_truncation_witness :
    (withHpi c7plain).history_present_illness = some c7plain ∧
    pyStrip c7plain = c7plain ∧ c7plain.length > LIMIT_HPI ∧
    (RuleBased.buildComplaintSection (withHpi c7plain)).2 =
      [RuleBased.truncationWarning "history_present_illness" 2000] :=
  ⟨rfl, c7plainStripped,
    by show ('a' :: (List.replicate 1999 'a' ++ ['a'])).length > LIMIT_HPI
       simp [LIMIT_HPI],
    (c7_truncation (withHpi c7plain) c7plain rfl c7plainStripped
      (by show ('a' :: (List.replicate 1999 'a' ++ ['a'])).length > LIMIT_HPI
          simp [LIMIT_HPI])).1⟩

/-! ## Claim C5 -/

/-- dropWhile with a whitespace-implying predicate preserves the
non-whitespace characters. -/
theorem filterNonWsDropWhile (p : Char → Bool)
    (hp : ∀ ch, p ch = true → isPySpace ch = true) (l : List Char) :
    (l.dropWhile p).filter (fun ch => !isPySpace ch) =
      l.filter (fun ch => !isPySpace ch) := by
  induction l with
  | nil => rfl
  | cons ch t ih =>
    by_cases h : p ch = true
    · rw [List.dropWhile_cons, if_pos h, ih]
      simp [List.filter_cons, hp ch h]
    · rw [List.dropWhile_cons, if_neg h]

/-- strip preserves the non-whitespace characters. -/
theorem filterNonWsStripL (l : List Char) :
    (stripL l).filter (fun ch => !isPySpace ch) =
      l.filter (fun ch => !isPySpace ch) := by
  unfold stripL
  rw [List.filter_reverse, filterNonWsDropWhile isPySpace (fun ch h => h),
    List.filter_reverse, List.reverse_reverse,
    filterNonWsDropWhile isPySpace (fun ch h => h)]

/-- Blank collapsing preserves the non-whitespace characters. -/
theorem filterNonWsCollapse (l : List Char) :
    (TextProcessor.collapseBlanks l).filter (fun ch => !isPySpace ch) =
      l.filter (fun ch => !isPySpace ch) := by
  have H : ∀ n, ∀ l : List Char, l.length ≤ n →
      (TextProcessor.collapseBlanks l).filter (fun ch => !isPySpace ch) =
        l.filter (fun ch => !isPySpace ch) := by
    intro n
    induction n with
    | zero =>
      intro l hl
      rw [List.length_eq_zero.mp (Nat.le_zero.mp hl)]
      rw [TextProcessor.collapseBlanks]
    | succ n ih =>
      intro l hl
      match l with
      | [] => rw [TextProcessor.collapseBlanks]
      | c :: rest =>
        rw [TextProcessor.collapseBlanks]
        by_cases hc : c = ' ' ∨ c = '\t'
        · rw [if_pos hc]
          have hdrop := filterNonWsDropWhile
            (fun d => d = ' ' || d = '\t')
            (fun ch h => by
              rcases Bool.or_eq_true_iff.mp h with h | h <;>
                simp_all [isPySpace]) rest
          have hlen : (rest.dropWhile (fun d => d = ' ' || d = '\t')).length
              ≤ n := by
            have := TextProcessor.dropWhileLenLe
              (fun d => d = ' ' || d = '\t') rest
            simp only [List.length_cons] at hl
            omega
          have hmain := ih _ hlen
          rcases hc with h | h <;> subst h <;>
            simp only [List.filter_cons,
              show (!isPySpace ' ') = false from rfl,
              show (!isPySpace '\t') = false from rfl,
              Bool.false_eq_true, if_false, hmain, hdrop]
        · rw [if_neg hc]
          have hlen : rest.length ≤ n := by
            simp only [List.length_cons] at hl
            omega
          rw [List.filter_cons, List.filter_cons, ih rest hlen]
  exact H l.length l (Nat.le_refl _)

/-- Newline squeezing preserves the non-whitespace characters. -/
theorem filterNonWsSqueeze (l : List Char) :
    (TextProcessor.squeezeNewlines l).filter (fun ch => !isPySpace ch) =
      l.filter (fun ch => !isPySpace ch) := by
  have H : ∀ n, ∀ l : List Char, l.length ≤ n →
      (TextProcessor.squeezeNewlines l).filter (fun ch => !isPySpace ch) =
        l.filter (fun ch => !isPySpace ch) := by
    intro n
    induction n with
    | zero =>
      intro l hl
      rw [List.length_eq_zero.mp (Nat.le_zero.mp hl)]
      rw [TextProcessor.squeezeNewlines]
    | succ n ih =>
      intro l hl
      match l with
      | [] => rw [TextProcessor.squeezeNewlines]
      | c :: rest =>
        rw [TextProcessor.squeezeNewlines]
        by_cases hc : c = '\n'
        · rw [if_pos hc]
          subst hc
          have hlen : (rest.dropWhile (fun d => d = '\n')).length ≤ n := by
            have := TextProcessor.dropWhileLenLe (fun d => d = '\n') rest
            simp only [List.length_cons] at hl
            omega
          have hbranch : (if (rest.takeWhile (fun d => d = '\n')).length + 1
                ≥ 3 then ['\n', '\n']
              else '\n' :: rest.takeWhile (fun d => d = '\n')).filter
                (fun ch => !isPySpace ch) = [] := by
            split <;> rw [List.filter_eq_nil_iff] <;> intro a ha
            · have : a = '\n' := by simpa using ha
              simp [this, isPySpace]
            · have : a = '\n' := by
                rcases List.mem_cons.mp ha with h | h
                · exact h
                · simpa using List.mem_takeWhile_imp h
              simp [this, isPySpace]
          have hsplit : rest.filter (fun ch => !isPySpace ch) =
              (rest.takeWhile (fun d => d = '\n')).filter
                (fun ch => !isPySpace ch) ++
              (rest.dropWhile (fun d => d = '\n')).filter
                (fun ch => !isPySpace ch) := by
            rw [← List.filter_append, List.takeWhile_append_dropWhile]
          have hrun : (rest.takeWhile (fun d => d = '\n')).filter
              (fun ch => !isPySpace ch) = [] := by
            rw [List.filter_eq_nil_iff]
            intro a ha
            have : a = '\n' := by simpa using List.mem_takeWhile_imp ha
            simp [this, isPySpace]
          rw [List.filter_append, hbranch, ih _ hlen, List.nil_append,
            List.filter_cons]
          simp only [show (!isPySpace '\n') = false from rfl,
            Bool.false_eq_true, if_false]
          rw [hsplit, hrun, List.nil_append]
        · rw [if_neg hc]
          have hlen : rest.length ≤ n := by
            simp only [List.length_cons] at hl
            omega
          rw [List.filter_cons, List.filter_cons, ih rest hlen]
  exact H l.length l (Nat.le_refl _)

/-- A string with a non-whitespace character normalizes to a non-empty
string. -/
theorem normalizeNeOfNonWs (s : String)
    (h : ∃ ch ∈ s.data, isPySpace ch = false) :
    TextProcessor.normalizeWhitespace (some s) ≠ "" := by
  obtain ⟨ch, hmem, hch⟩ := h
  have hne : s ≠ "" := by
    intro he
    rw [he] at hmem
    simp at hmem
  show (if s = "" then ""
    else String.mk (stripL (TextProcessor.squeezeNewlines
      (TextProcessor.collapseBlanks s.data)))) ≠ ""
  rw [if_neg hne]
  intro he
  have hdata : stripL (TextProcessor.squeezeNewlines
      (TextProcessor.collapseBlanks s.data)) = [] := by
    have := congrArg String.data he
    simpa using this
  have hfil : (stripL (TextProcessor.squeezeNewlines
      (TextProcessor.collapseBlanks s.data))).filter
      (fun ch => !isPySpace ch) = s.data.filter (fun ch => !isPySpace ch) := by
    rw [filterNonWsStripL, filterNonWsSqueeze, filterNonWsCollapse]
  rw [hdata] at hfil
  have : ch ∈ s.data.filter (fun ch => !isPySpace ch) := by
    rw [List.mem_filter]
    exact ⟨hmem, by simp [hch]⟩
  rw [← hfil] at this
  simp at this

/-- A stripped non-empty string has a non-whitespace character. -/
theorem strippedHasNonWs (s : String) (hstr : pyStrip s = s) (hne : s ≠ "") :
    ∃ ch ∈ s.data, isPySpace ch = false := by
  by_contra hall
  push_neg at hall
  have hws : ∀ ch ∈ s.data, isPySpace ch = true := by
    intro ch hm
    have := hall ch hm
    simpa using this
  have hdrop : s.data.dropWhile isPySpace = [] := by
    rw [List.dropWhile_eq_nil_iff]
    exact hws
  have : pyStrip s = "" := by
    show String.mk (stripL s.data) = ""
    unfold stripL
    rw [hdrop]
    rfl
  rw [hstr] at this
  exact hne this

/-- Truncation output of a stripped non-empty optional field always has a
non-whitespace character. -/
theorem truncateHasNonWs (s : String) (hstr : pyStrip s = s) (hne : s ≠ "")
    (limit : Nat) :
    ∃ ch ∈ (TextProcessor.truncate (some s) limit).1.data,
      isPySpace ch = false := by
  show ∃ ch ∈ (if s = "" then ("", false)
    else
      let t := pyStrip s
      if t.length ≤ limit then (t, false)
      else (pyStrip (pyTake t (limit - "...".length)) ++ "...", true)).1.data,
    isPySpace ch = false
  rw [if_neg hne]
  simp only [hstr]
  by_cases hlen : s.length ≤ limit
  · rw [if_pos hlen]
    exact strippedHasNonWs s hstr hne
  · rw [if_neg hlen]
    refine ⟨'.', ?_, by decide⟩
    show '.' ∈ (pyStrip (pyTake s (limit - "...".length)) ++ "...").data
    rw [String.data_append]
    exact List.mem_append_right _ (by decide)

/-- The physical-exam section of a valid record carries the normalized
truncated narrative, which is non-empty (the placeholder branch is never
taken). -/
theorem physContent (c : ConsultationCreate)
    (hv : StrippedOpt c.physical_examination)
    (hp : strTruthy c.physical_examination = true) :
    (RuleBased.buildPhysicalExamSection c).1.content =
      TextProcessor.normalizeWhitespace
        (some (TextProcessor.truncate c.physical_examination LIMIT_EXAM).1) ∧
    (RuleBased.buildPhysicalExamSection c).1.content ≠ "" := by
  obtain ⟨s, hs⟩ : ∃ s, c.physical_examination = some s := by
    cases h : c.physical_examination with
    | none => rw [h] at hp; simp [strTruthy] at hp
    | some s => exact ⟨s, rfl⟩
  have hne : s ≠ "" := by
    rw [hs] at hp
    simpa [strTruthy] using hp
  have hstr : pyStrip s = s := by
    rw [hs] at hv
    exact hv
  have hnws := truncateHasNonWs s hstr hne LIMIT_EXAM
  have hnorm := normalizeNeOfNonWs
    (TextProcessor.truncate (some s) LIMIT_EXAM).1 hnws
  simp only [RuleBased.buildPhysicalExamSection, hs]
  rw [if_pos (by simpa using hnorm)]
  exact ⟨rfl, hnorm⟩

/-- The plan section of a valid record carries the normalized truncated
plan, which is non-empty (the placeholder branch is never taken). -/
theorem planContent (c : ConsultationCreate)
    (hv : StrippedOpt c.treatment_plan)
    (hp : strTruthy c.treatment_plan = true) :
    (RuleBased.buildPlanSection c).1.content =
      TextProcessor.normalizeWhitespace
        (some (TextProcessor.truncate c.treatment_plan LIMIT_PLAN).1) ∧
    (RuleBased.buildPlanSection c).1.content ≠ "" := by
  obtain ⟨s, hs⟩ : ∃ s, c.treatment_plan = some s := by
    cases h : c.treatment_plan with
    | none => rw [h] at hp; simp [strTruthy] at hp
    | some s => exact ⟨s, rfl⟩
  have hne : s ≠ "" := by
    rw [hs] at hp
    simpa [strTruthy] using hp
  have hstr : pyStrip s = s := by
    rw [hs] at hv
    exact hv
  have hnws := truncateHasNonWs s hstr hne LIMIT_PLAN
  have hnorm := normalizeNeOfNonWs
    (TextProcessor.truncate (some s) LIMIT_PLAN).1 hnws
  simp only [RuleBased.buildPlanSection, hs]
  rw [if_pos (by simpa using hnorm)]
  exact ⟨rfl, hnorm⟩

/-- Code of the identification section. -/
theorem identCode (today : Date) (c : ConsultationCreate) :
    (RuleBased.buildIdentificationSection today c).code = "identification" :=
  rfl
/-- Order of the identification section. -/
theorem identOrder (today : Date) (c : ConsultationCreate) :
    (RuleBased.buildIdentificationSection today c).order = 1 := rfl
/-- Code of the complaint section. -/
theorem complaintCode (c : ConsultationCreate) :
    (RuleBased.buildComplaintSection c).1.code = "complaint_history" := rfl
/-- Order of the complaint section. -/
theorem complaintOrder (c : ConsultationCreate) :
    (RuleBased.buildComplaintSection c).1.order = 2 := rfl
/-- Code of the vital-signs section. -/
theorem vitalCode (c : ConsultationCreate) :
    (RuleBased.buildVitalSignsSection c).code = "vital_signs" := by
  cases h : c.vital_signs <;> simp [RuleBased.buildVitalSignsSection, h]
/-- Order of the vital-signs section. -/
theorem vitalOrder (c : ConsultationCreate) :
    (RuleBased.buildVitalSignsSection c).order = 3 := by
  cases h : c.vital_signs <;> simp [RuleBased.buildVitalSignsSection, h]
/-- Code of the background section. -/
theorem backgroundCode (c : ConsultationCreate) :
    (RuleBased.buildBackgroundSection c).1.code = "background" := rfl
/-- Order of the background section. -/
theorem backgroundOrder (c : ConsultationCreate) :
    (RuleBased.buildBackgroundSection c).1.order = 4 := rfl
/-- Code of the physical-exam section. -/
theorem physCode (c : ConsultationCreate) :
    (RuleBased.buildPhysicalExamSection c).1.code = "physical_exam" := rfl
/-- Order of the physical-exam section. -/
theorem physOrder (c : ConsultationCreate) :
    (RuleBased.buildPhysicalExamSection c).1.order = 5 := rfl
/-- Code of the assessment section. -/
theorem assessCode (today : Date) (c : ConsultationCreate) :
    (RuleBased.buildAssessmentSection today c).1.code = "assessment" := rfl
/-- Order of the assessment section. -/
theorem assessOrder (today : Date) (c : ConsultationCreate) :
    (RuleBased.buildAssessmentSection today c).1.order = 6 := rfl
/-- Code of the plan section. -/
theorem planCode (c : ConsultationCreate) :
    (RuleBased.buildPlanSection c).1.code = "plan" := rfl
/-- Order of the plan section. -/
theorem planOrder (c : ConsultationCreate) :
    (RuleBased.buildPlanSection c).1.order = 7 := rfl

/-- Membership in the generated sections list, characterized by the
builders and their guards. -/
theorem memGenSections (today : Date) (c : ConsultationCreate)
    (s : SummarySection)
    (hmem : s ∈ (RuleBased.generateSections today c).1) :
    s = RuleBased.buildIdentificationSection today c ∨
    s = (RuleBased.buildComplaintSection c).1 ∨
    (s = RuleBased.buildVitalSignsSection c ∧ c.vital_signs ≠ none) ∨
    s = (RuleBased.buildBackgroundSection c).1 ∨
    (s = (RuleBased.buildPhysicalExamSection c).1 ∧
      strTruthy c.physical_examination = true) ∨
    s = (RuleBased.buildAssessmentSection today c).1 ∨
    (s = (RuleBased.buildPlanSection c).1 ∧
      strTruthy c.treatment_plan = true) := by
  rcases hv : c.vital_signs with _ | vs <;>
    rcases hpe : strTruthy c.physical_examination with _ | _ <;>
      rcases hpl : strTruthy c.treatment_plan with _ | _ <;>
        simp only [RuleBased.generateSections, hv, hpe, hpl, if_true,
          if_false, Bool.false_eq_true, List.append_nil, List.nil_append,
          List.mem_append, List.mem_cons, List.not_mem_nil, or_false,
          false_or] at hmem <;>
        tauto

/-- The physical-exam section is in the list when the narrative is
truthy. -/
theorem memPhysSection (today : Date) (c : ConsultationCreate)
    (hpe : strTruthy c.physical_examination = true) :
    (RuleBased.buildPhysicalExamSection c).1 ∈
      (RuleBased.generateSections today c).1 := by
  simp only [RuleBased.generateSections, hpe, if_true]
  simp

/-- The plan section is in the list when the plan is truthy. -/
theorem memPlanSection (today : Date) (c : ConsultationCreate)
    (hpl : strTruthy c.treatment_plan = true) :
    (RuleBased.buildPlanSection c).1 ∈
      (RuleBased.generateSections today c).1 := by
  simp only [RuleBased.generateSections, hpl, if_true]
  simp

/-- The vital-signs section is in the list when the object is present. -/
theorem memVitalSection (today : Date) (c : ConsultationCreate)
    (vs : VitalSigns) (hv : c.vital_signs = some vs) :
    RuleBased.buildVitalSignsSection c ∈
      (RuleBased.generateSections today c).1 := by
  simp only [RuleBased.generateSections, hv]
  simp

/-- Claim C5, counterexample: a structurally valid record whose
vital-signs object carries no values at all still yields a vital_signs
section, emitted with the placeholder content, contradicting the claim
that a section with no source data for its optional fields is never
emitted. -/
theorem c5_placeholder_counterexample :
    vitalsOnlyRecord.vital_signs = some VitalSigns.allNone ∧
    VitalSigns.allNone = ⟨none, none, none, none, none, none, none,
      none, none⟩ ∧
    ∃ s ∈ (RuleBased.summarize sampleToday vitalsOnlyRecord).sections,
      s.code = "vital_signs" ∧ s.content = "Não informados" := by
  refine ⟨rfl, rfl, RuleBased.buildVitalSignsSection vitalsOnlyRecord,
    ?_, rfl, rfl⟩
  show _ ∈ (RuleBased.generateSections sampleToday vitalsOnlyRecord).1
  exact memVitalSection sampleToday vitalsOnlyRecord VitalSigns.allNone rfl

/-- Claim C5, amended: a physical_exam section appears iff the
physical-examination narrative is present and non-empty, a plan section
iff the treatment plan is present and non-empty, and a vital_signs
section iff the vital-signs object is present (when the object carries
no values the section is emitted with the placeholder content
"Não informados"); the emitted (code, order) pairs always form a
sublist of the fixed catalog, so order values keep their catalog
positions, strictly increase and never repeat; and on a record whose
narrative fields are pydantic-stripped, emitted physical_exam and plan
sections carry the normalized truncated narrative, never empty or
placeholder text. -/
theorem c5_section_presence (today : Date) (c : ConsultationCreate)
    (hvp : StrippedOpt c.physical_examination)
    (hvt : StrippedOpt c.treatment_plan) :
    ((∃ s ∈ (RuleBased.summarize today c).sections,
        s.code = "physical_exam") ↔
      strTruthy c.physical_examination = true) ∧
    ((∃ s ∈ (RuleBased.summarize today c).sections, s.code = "plan") ↔
      strTruthy c.treatment_plan = true) ∧
    ((∃ s ∈ (RuleBased.summarize today c).sections,
        s.code = "vital_signs") ↔ c.vital_signs ≠ none) ∧
    List.Sublist
      ((RuleBased.summarize today c).sections.map
        (fun s => (s.code, s.order)))
      SUMMARY_SECTIONS_CATALOG ∧
    (∀ s ∈ (RuleBased.summarize today c).sections,
      s.code = "physical_exam" →
        s.content = TextProcessor.normalizeWhitespace
          (some (TextProcessor.truncate c.physical_examination
            LIMIT_EXAM).1) ∧ s.content ≠ "") ∧
    (∀ s ∈ (RuleBased.summarize today c).sections,
      s.code = "plan" →
        s.content = TextProcessor.normalizeWhitespace
          (some (TextProcessor.truncate c.treatment_plan
            LIMIT_PLAN).1) ∧ s.content ≠ "") := by
  have hsecs : (RuleBased.summarize today c).sections =
      (RuleBased.generateSections today c).1 := rfl
  rw [hsecs]
  refine ⟨?_, ?_, ?_, ?_, ?_, ?_⟩
  · constructor
    · rintro ⟨s, hmem, hcode⟩
      rcases memGenSections today c s hmem with
        h | h | ⟨h, _⟩ | h | ⟨h, hc⟩ | h | ⟨h, _⟩ <;> subst h <;>
        first
          | exact hc
          | (simp [identCode, complaintCode, vitalCode, backgroundCode,
              physCode, assessCode, planCode] at hcode)
    · intro hpe
      exact ⟨_, memPhysSection today c hpe, physCode c⟩
  · constructor
    · rintro ⟨s, hmem, hcode⟩
      rcases memGenSections today c s hmem with
        h | h | ⟨h, _⟩ | h | ⟨h, _⟩ | h | ⟨h, hc⟩ <;> subst h <;>
        first
          | exact hc
          | (simp [identCode, complaintCode, vitalCode, backgroundCode,
              physCode, assessCode, planCode] at hcode)
    · intro hpl
      exact ⟨_, memPlanSection today c hpl, planCode c⟩
  · constructor
    · rintro ⟨s, hmem, hcode⟩
      rcases memGenSections today c s hmem with
        h | h | ⟨h, hc⟩ | h | ⟨h, _⟩ | h | ⟨h, _⟩ <;> subst h <;>
        first
          | exact hc
          | (simp [identCode, complaintCode, vitalCode, backgroundCode,
              physCode, assessCode, planCode] at hcode)
    · intro hv
      obtain ⟨vs, hv'⟩ := Option.ne_none_iff_exists'.mp hv
      exact ⟨_, memVitalSection today c vs hv', vitalCode c⟩
  · rcases hv : c.vital_signs with _ | vs <;>
      rcases hpe : strTruthy c.physical_examination with _ | _ <;>
        rcases hpl : strTruthy c.treatment_plan with _ | _ <;>
          simp only [RuleBased.generateSections, hv, hpe, hpl, if_true,
            if_false, Bool.false_eq_true, List.append_nil, List.nil_append,
            List.map_append, List.map_cons, List.map_nil, identCode,
            identOrder, complaintCode, complaintOrder, vitalCode, vitalOrder,
            backgroundCode, backgroundOrder, physCode, physOrder, assessCode,
            assessOrder, planCode, planOrder, SUMMARY_SECTIONS_CATALOG] <;>
          decide
  · rintro s hmem hcode
    rcases memGenSections today c s hmem with
      h | h | ⟨h, _⟩ | h | ⟨h, hc⟩ | h | ⟨h, _⟩ <;> subst h <;>
      first
        | exact physContent c hvp hc
        | (simp [identCode, complaintCode, vitalCode, backgroundCode,
            physCode, assessCode, planCode] at hcode)
  · rintro s hmem hcode
    rcases memGenSections today c s hmem with
      h | h | ⟨h, _⟩ | h | ⟨h, _⟩ | h | ⟨h, hc⟩ <;> subst h <;>
      first
        | exact planContent c hvt hc
        | (simp [identCode, complaintCode, vitalCode, backgroundCode,
            physCode, assessCode, planCode] at hcode)

/-- Witness for c5_section_presence on the sample record. -/
theorem c5_section_presence_witness :
    StrippedOpt sampleConsultation.physical_examination ∧
    StrippedOpt sampleConsultation.treatment_plan ∧
    List.Sublist
      ((RuleBased.summarize sampleToday sampleConsultation).sections.map
        (fun s => (s.code, s.order)))
      SUMMARY_SECTIONS_CATALOG :=
  ⟨trivial, trivial,
    (c5_section_presence sampleToday sampleConsultation trivial
      trivial).2.2.2.1⟩

/-! ## Claim C9 -/

/-- A parse loop over objects that all lack required keys yields no
sections. -/
theorem parseLoopAllIncomplete (v : List Json) :
    ∀ idx, (∀ e ∈ v, ∃ f, e = Json.obj f ∧
      ¬ ((LLMBased.jGet f "title").isSome ∧
         (LLMBased.jGet f "code").isSome ∧
         (LLMBased.jGet f "content").isSome)) →
    (LLMBased.parseLoop v idx).2 = .ok [] := by
  induction v with
  | nil => intro idx _; rfl
  | cons e rest ih =>
    intro idx h
    obtain ⟨f, he, hinc⟩ := h e (List.mem_cons_self _ _)
    subst he
    rw [LLMBased.parseLoop]
    rw [show LLMBased.checkElem (Json.obj f) = .incomplete from by
      simp only [LLMBased.checkElem]
      rw [if_neg hinc]]
    exact ih (idx + 1) (fun x hx => h x (List.mem_cons_of_mem _ hx))

/-- Every warning the parse loop records is an incomplete-section
warning. -/
theorem parseLoopWarnings (v : List Json) :
    ∀ idx w, w ∈ (LLMBased.parseLoop v idx).1 →
      ∃ i, w = LLMBased.incompleteWarning i := by
  induction v with
  | nil => intro idx w hw; simp [LLMBased.parseLoop] at hw
  | cons e rest ih =>
    intro idx w hw
    rw [LLMBased.parseLoop] at hw
    split at hw
    · split at hw
      · exact ih (idx + 1) w hw
      · simp at hw
    · rcases List.mem_cons.mp hw with h | h
      · exact ⟨idx, h⟩
      · exact ih (idx + 1) w h
    · simp at hw

/-- Every warning recorded before a parse failure is an
incomplete-section warning. -/
theorem parseResponseWarnings (decoded : Except String Json) :
    ∀ w ∈ (LLMBased.parseResponse decoded).1,
      w.code = "LLM_SECTION_INCOMPLETE" := by
  intro w hw
  match decoded with
  | .error e => simp [LLMBased.parseResponse] at hw
  | .ok j =>
    match j with
    | .null | .bool _ | .num _ | .str _ | .arr _ =>
      simp [LLMBased.parseResponse] at hw
    | .obj fields =>
      rw [LLMBased.parseResponse] at hw
      split at hw
      · simp at hw
      · split at hw
        · simp at hw
        · obtain ⟨i, hi⟩ := parseLoopWarnings _ 0 w (by simpa using hw)
          rw [hi]
          rfl

/-- Claim C9, counterexample: the warning produced for a skipped
incomplete section object carries level low, not level info as the
claim states. -/
theorem c9_level_counterexample :
    ((LLMBased.parseResponse (.ok c9reply)).1.map
      (fun w => (w.code, w.level))) =
      [("LLM_SECTION_INCOMPLETE", WarningLevel.low)] ∧
    WarningLevel.low ≠ WarningLevel.info := by
  exact ⟨rfl, by decide⟩

/-- Claim C9, amended: a section object lacking any of title, code or
content is skipped with exactly one LLM_SECTION_INCOMPLETE warning at
level low (not fatal: the rest of the reply is still processed), while
a reply whose section objects are all incomplete parses to zero usable
sections, which is fatal and sends summarize to the fallback path
rather than raising to the caller. -/
theorem c9_incomplete_section_handling :
    (∀ (f : List (String × Json)) (rest : List Json) (idx : Nat),
      ¬ ((LLMBased.jGet f "title").isSome ∧
         (LLMBased.jGet f "code").isSome ∧
         (LLMBased.jGet f "content").isSome) →
      LLMBased.parseLoop (Json.obj f :: rest) idx =
        (LLMBased.incompleteWarning idx ::
          (LLMBased.parseLoop rest (idx + 1)).1,
         (LLMBased.parseLoop rest (idx + 1)).2) ∧
      (LLMBased.incompleteWarning idx).level = WarningLevel.low ∧
      (LLMBased.incompleteWarning idx).code = "LLM_SECTION_INCOMPLETE") ∧
    (∀ (fields : List (String × Json)) (v : List Json),
      LLMBased.jGet fields "sections" = some (Json.arr v) →
      (∀ e ∈ v, ∃ f, e = Json.obj f ∧
        ¬ ((LLMBased.jGet f "title").isSome ∧
           (LLMBased.jGet f "code").isSome ∧
           (LLMBased.jGet f "content").isSome)) →
      (LLMBased.parseResponse (.ok (.obj fields))).2 =
        .error "Nenhuma seção válida na resposta") ∧
    (∀ (decoded : Except String Json)
      (fb : ConsultationCreate → SummarizerResult) (c : ConsultationCreate)
      (m : String),
      (LLMBased.parseResponse decoded).2 = .error m →
      (LLMBased.summarize ⟨true, none, .response decoded⟩ fb c).strategy_used
        = "llm_fallback") := by
  refine ⟨?_, ?_, ?_⟩
  · intro f rest idx h
    refine ⟨?_, rfl, rfl⟩
    rw [LLMBased.parseLoop]
    rw [show LLMBased.checkElem (Json.obj f) = .incomplete from by
      simp only [LLMBased.checkElem]
      rw [if_neg h]]
  · intro fields v hg hall
    have hloop := parseLoopAllIncomplete v 0 hall
    rw [LLMBased.parseResponse, hg]
    show ((LLMBased.parseLoop v 0).1,
      (match (LLMBased.parseLoop v 0).2 with
       | Except.error m => Except.error m
       | Except.ok [] =>
         Except.error "Nenhuma seção válida na resposta"
       | Except.ok secs =>
         (Except.ok secs : Except String (List SummarySection)))).2 = _
    rw [hloop]
  · intro decoded fb c m h
    show (match (LLMBased.parseResponse decoded).2 with
      | Except.error msg =>
        LLMBased.executeFallback fb c (LLMBased.parseResponse decoded).1 msg
      | Except.ok sections =>
        let g := LLMBased.applyGuardrails sections
        (⟨g.1, LLMBased.buildFullText g.1,
          (LLMBased.parseResponse decoded).1 ++ g.2,
          "llm_based"⟩ : SummarizerResult)).strategy_used = "llm_fallback"
    rw [h]
    rfl

/-- Witness for c9_incomplete_section_handling at a one-element reply. -/
theorem c9_incomplete_section_handling_witness :
    (¬ ((LLMBased.jGet [("title", Json.str "t")] "title").isSome ∧
        (LLMBased.jGet [("title", Json.str "t")] "code").isSome ∧
        (LLMBased.jGet [("title", Json.str "t")] "content").isSome)) ∧
    LLMBased.parseLoop [Json.obj [("title", Json.str "t")]] 0 =
      (LLMBased.incompleteWarning 0 :: (LLMBased.parseLoop [] 1).1,
       (LLMBased.parseLoop [] 1).2) := by
  have h : ¬ ((LLMBased.jGet [("title", Json.str "t")] "title").isSome ∧
      (LLMBased.jGet [("title", Json.str "t")] "code").isSome ∧
      (LLMBased.jGet [("title", Json.str "t")] "content").isSome) := by
    decide
  exact ⟨h,
    (c9_incomplete_section_handling.1 [("title", Json.str "t")] [] 0 h).1⟩

/-! ## Claim C1 -/

/-- Claim C1, counterexample: when the reply parses but yields zero
usable sections, the incomplete-section warnings recorded before the
failure precede LLM_FALLBACK_ACTIVATED, so the first element of the
returned warnings list is not the fallback warning. -/
theorem c1_first_warning_counterexample :
    (LLMBased.summarize c1env (RuleBased.summarize sampleToday)
      sampleConsultation).strategy_used = "llm_fallback" ∧
    ((LLMBased.summarize c1env (RuleBased.summarize sampleToday)
      sampleConsultation).warnings.head?.map (fun w => w.code)) =
      some "LLM_SECTION_INCOMPLETE" ∧
    ("LLM_SECTION_INCOMPLETE" : String) ≠ "LLM_FALLBACK_ACTIVATED" := by
  exact ⟨rfl, rfl, by decide⟩

/-- Claim C1, amended: whenever the AI path ends in fallback (which it
does on every failure stage, returning normally), the result carries the
fallback generator's sections and full_text unchanged and a warnings
list equal to the warnings already recorded before the failure (all of
them incomplete-section warnings, empty except in the zero-usable-
sections stage), then one LLM_FALLBACK_ACTIVATED warning at level info
whose message carries the failure reason truncated to 100 characters,
then the fallback generator's own warnings in order. -/
theorem c1_fallback_structure (env : LLMBased.LLMEnv)
    (fb : ConsultationCreate → SummarizerResult) (c : ConsultationCreate)
    (h : (LLMBased.summarize env fb c).strategy_used = "llm_fallback") :
    (LLMBased.summarize env fb c).sections = (fb c).sections ∧
    (LLMBased.summarize env fb c).full_text = (fb c).full_text ∧
    ∃ pre reason,
      (LLMBased.summarize env fb c).warnings =
        pre ++ LLMBased.fallbackWarning reason :: (fb c).warnings ∧
      (LLMBased.fallbackWarning reason).code = "LLM_FALLBACK_ACTIVATED" ∧
      (LLMBased.fallbackWarning reason).level = WarningLevel.info ∧
      (LLMBased.fallbackWarning reason).message =
        "Fallback para rule_based ativado: " ++ pyTake reason 100 ∧
      (pyTake reason 100).length ≤ 100 ∧
      (∀ w ∈ pre, w.code = "LLM_SECTION_INCOMPLETE") := by
  obtain ⟨enabled, initF, call⟩ := env
  have hfb : ∀ (pre : List ConsultationWarning) (reason : String),
      (∀ w ∈ pre, w.code = "LLM_SECTION_INCOMPLETE") →
      (LLMBased.executeFallback fb c pre reason).sections = (fb c).sections ∧
      (LLMBased.executeFallback fb c pre reason).full_text =
        (fb c).full_text ∧
      ∃ pre2 reason2,
        (LLMBased.executeFallback fb c pre reason).warnings =
          pre2 ++ LLMBased.fallbackWarning reason2 :: (fb c).warnings ∧
        (LLMBased.fallbackWarning reason2).code = "LLM_FALLBACK_ACTIVATED" ∧
        (LLMBased.fallbackWarning reason2).level = WarningLevel.info ∧
        (LLMBased.fallbackWarning reason2).message =
          "Fallback para rule_based ativado: " ++ pyTake reason2 100 ∧
        (pyTake reason2 100).length ≤ 100 ∧
        (∀ w ∈ pre2, w.code = "LLM_SECTION_INCOMPLETE") := by
    intro pre reason hpre
    refine ⟨rfl, rfl, pre, reason, ?_, rfl, rfl, rfl, ?_, hpre⟩
    · show (pre ++ [LLMBased.fallbackWarning reason]) ++ (fb c).warnings = _
      rw [List.append_assoc]
      rfl
    · show (reason.data.take 100).length ≤ 100
      rw [List.length_take]
      omega
  cases enabled with
  | false => exact hfb [] "LLM não configurado" (by simp)
  | true =>
    cases initF with
    | some f => exact hfb [] (LLMBased.lazyInitMsg f) (by simp)
    | none =>
      cases call with
      | exn d => exact hfb [] ("Erro na geração: " ++ d) (by simp)
      | emptyResponse => exact hfb [] "Resposta vazia do LLM" (by simp)
      | response decoded =>
        rcases hp : (LLMBased.parseResponse decoded).2 with m | secs
        · have : LLMBased.summarize ⟨true, none, .response decoded⟩ fb c =
              LLMBased.executeFallback fb c
                (LLMBased.parseResponse decoded).1 m := by
            show (match (LLMBased.parseResponse decoded).2 with
              | Except.error msg => LLMBased.executeFallback fb c
                  (LLMBased.parseResponse decoded).1 msg
              | Except.ok sections =>
                let g := LLMBased.applyGuardrails sections
                (⟨g.1, LLMBased.buildFullText g.1,
                  (LLMBased.parseResponse decoded).1 ++ g.2,
                  "llm_based"⟩ : SummarizerResult)) = _
            rw [hp]
          rw [this]
          exact hfb (LLMBased.parseResponse decoded).1 m
            (parseResponseWarnings decoded)
        · exfalso
          have : (LLMBased.summarize ⟨true, none, .response decoded⟩
              fb c).strategy_used = "llm_based" := by
            show (match (LLMBased.parseResponse decoded).2 with
              | Except.error msg => LLMBased.executeFallback fb c
                  (LLMBased.parseResponse decoded).1 msg
              | Except.ok sections =>
                let g := LLMBased.applyGuardrails sections
                (⟨g.1, LLMBased.buildFullText g.1,
                  (LLMBased.parseResponse decoded).1 ++ g.2,
                  "llm_based"⟩ : SummarizerResult)).strategy_used = _
            rw [hp]
          rw [this] at h
          exact absurd h (by decide)

/-- Witness for c1_fallback_structure with the provider disabled. -/
theorem c1_fallback_structure_witness :
    (LLMBased.summarize c1disabledEnv (RuleBased.summarize sampleToday)
      sampleConsultation).strategy_used = "llm_fallback" ∧
    (LLMBased.summarize c1disabledEnv (RuleBased.summarize sampleToday)
      sampleConsultation).sections =
      (RuleBased.summarize sampleToday sampleConsultation).sections :=
  ⟨rfl, (c1_fallback_structure c1disabledEnv
    (RuleBased.summarize sampleToday) sampleConsultation rfl).1⟩

/-! ## Claim C4 -/

/-- The empty list is a prefix of every list. -/
theorem nilPrefix {α : Type} (l : List α) : [] <+: l := ⟨l, rfl⟩

/-- A prefix of a cons is empty or a cons of a prefix. -/
theorem prefixConsCases {α : Type} {u : List α} {x : α} {X : List α}
    (h : u <+: x :: X) : u = [] ∨ ∃ u', u = x :: u' ∧ u' <+: X :=
  List.prefix_cons_iff.mp h

/-- A prefix of an append lies in the left part or covers it. -/
theorem prefixAppendCases {α : Type} :
    ∀ (a : List α) {l b : List α}, l <+: a ++ b →
      l <+: a ∨ ∃ l2, l = a ++ l2 ∧ l2 <+: b := by
  intro a
  induction a with
  | nil =>
    intro l b h
    exact Or.inr ⟨l, rfl, h⟩
  | cons x a' ih =>
    intro l b h
    rcases prefixConsCases h with rfl | ⟨u', rfl, hu⟩
    · exact Or.inl (nilPrefix _)
    · rcases ih hu with h1 | ⟨l2, rfl, h2⟩
      · exact Or.inl (List.prefix_cons_iff.mpr (Or.inr ⟨u', rfl, h1⟩))
      · exact Or.inr ⟨l2, rfl, h2⟩

/-- A sub-run of a cons is a prefix of it or a sub-run of the tail. -/
theorem infixConsCases {α : Type} {l : List α} {x : α} {X : List α}
    (h : l <:+: x :: X) : l <+: x :: X ∨ l <:+: X := by
  obtain ⟨p, q, hpq⟩ := h
  cases p with
  | nil => exact Or.inl ⟨q, by simpa using hpq⟩
  | cons y p' =>
    simp only [List.cons_append, List.cons.injEq] at hpq
    exact Or.inr ⟨p', q, hpq.2⟩

/-- A sub-run of the tail is a sub-run of the cons. -/
theorem infixOfCons {α : Type} {l : List α} {x : α} {X : List α}
    (h : l <:+: X) : l <:+: x :: X := by
  obtain ⟨p, q, hpq⟩ := h
  exact ⟨x :: p, q, by rw [← hpq]; rfl⟩

/-- The empty list is a sub-run of every list. -/
theorem nilInfix {α : Type} (l : List α) : [] <:+: l := ⟨[], l, rfl⟩

/-- A sub-run of an append lies in one part or straddles the seam. -/
theorem infixAppendCases {α : Type} :
    ∀ (a : List α) {l b : List α}, l <:+: a ++ b →
      l <:+: a ∨ l <:+: b ∨
        ∃ l1 l2, l = l1 ++ l2 ∧ l1 ≠ [] ∧ l2 ≠ [] ∧ l1 <:+ a ∧ l2 <+: b := by
  intro a
  induction a with
  | nil =>
    intro l b h
    exact Or.inr (Or.inl (by simpa using h))
  | cons x a' ih =>
    intro l b h
    rw [List.cons_append] at h
    rcases infixConsCases h with hp | hi
    · rcases prefixConsCases hp with rfl | ⟨u', rfl, hu⟩
      · exact Or.inl (nilInfix _)
      · rcases prefixAppendCases a' hu with h1 | ⟨l2, rfl, h2⟩
        · exact Or.inl (List.IsPrefix.isInfix
            (List.prefix_cons_iff.mpr (Or.inr ⟨u', rfl, h1⟩)))
        · cases l2 with
          | nil =>
            refine Or.inl ⟨[], [], ?_⟩
            simp
          | cons z zs =>
            refine Or.inr (Or.inr ⟨x :: a', z :: zs, by simp, by simp,
              by simp, ⟨[], rfl⟩, h2⟩)
    · rcases ih hi with h1 | h2 | ⟨l1, l2, rfl, hn1, hn2, hs, hp2⟩
      · exact Or.inl (infixOfCons h1)
      · exact Or.inr (Or.inl h2)
      · obtain ⟨s, hs⟩ := hs
        exact Or.inr (Or.inr ⟨l1, l2, rfl, hn1, hn2,
          ⟨x :: s, by rw [← hs]; rfl⟩, hp2⟩)

/-- Two prefixes of the same list are comparable. -/
theorem prefixTotal {α : Type} {a b s : List α}
    (ha : a <+: s) (hb : b <+: s) : a <+: b ∨ b <+: a := by
  rcases Nat.le_total a.length b.length with h | h
  · left
    rw [List.prefix_iff_eq_take] at ha hb ⊢
    rw [hb, List.take_take, Nat.min_eq_left h, ← ha]
  · right
    rw [List.prefix_iff_eq_take] at ha hb ⊢
    rw [ha, List.take_take, Nat.min_eq_left h, ← hb]

/-- map preserves prefixes. -/
theorem mapPrefixMono {α β : Type} {u v : List α} (f : α → β)
    (h : u <+: v) : u.map f <+: v.map f := by
  obtain ⟨k, hk⟩ := h
  exact ⟨k.map f, by rw [← List.map_append, hk]⟩

/-- map preserves suffixes. -/
theorem mapSuffixMono {α β : Type} {u v : List α} (f : α → β)
    (h : u <:+ v) : u.map f <:+ v.map f := by
  obtain ⟨k, hk⟩ := h
  exact ⟨k.map f, by rw [← List.map_append, hk]⟩

/-- The tail of a suffix is a suffix. -/
theorem tailSuffix {α : Type} {x : α} {u l : List α}
    (h : (x :: u) <:+ l) : u <:+ l := by
  obtain ⟨s, hs⟩ := h
  refine ⟨s ++ [x], ?_⟩
  rw [List.append_assoc]
  exact hs

/-- isPrefixOf on characters agrees with the prefix relation. -/
theorem isPrefixOfIff : ∀ (a b : List Char), a.isPrefixOf b = true ↔ a <+: b
  | [], b => by simp [List.isPrefixOf]
  | x :: xs, [] => by
    simp only [List.isPrefixOf]
    constructor
    · intro h; cases h
    · intro h
      have := List.IsPrefix.length_le h
      simp at this
  | x :: xs, y :: ys => by
    simp only [List.isPrefixOf, Bool.and_eq_true, beq_iff_eq]
    rw [isPrefixOfIff xs ys, List.prefix_cons_iff]
    constructor
    · rintro ⟨rfl, h⟩
      exact Or.inr ⟨xs, rfl, h⟩
    · rintro (h | ⟨t, ht, h⟩)
      · cases h
      · cases ht
        exact ⟨rfl, h⟩

/-- isSubL agrees with the sub-run relation. -/
theorem isSubLIff : ∀ (pat hay : List Char),
    LLMBased.isSubL pat hay = true ↔ pat <:+: hay
  | pat, [] => by
    simp only [LLMBased.isSubL, List.isEmpty_iff]
    constructor
    · rintro rfl; exact nilInfix _
    · intro h
      simpa using h.length_le
  | pat, c :: rest => by
    simp only [LLMBased.isSubL, Bool.or_eq_true]
    rw [isPrefixOfIff, isSubLIff pat rest]
    constructor
    · rintro (h | h)
      · exact h.isInfix
      · exact infixOfCons h
    · intro h
      rcases infixConsCases h with h | h
      · exact Or.inl h
      · exact Or.inr h

/-- Only the empty list is a sub-run of the empty list. -/
theorem infixNilElim {l : List Char} (h : l <:+: ([] : List Char)) :
    l = [] := by
  obtain ⟨p, q, hpq⟩ := h
  rcases List.append_eq_nil.mp hpq with ⟨h1, h2⟩
  exact (List.append_eq_nil.mp h1).2

/-- Every forbidden diagnostic term satisfies the conditions. -/
theorem allTermsOK : ∀ tm ∈ FORBIDDEN_DIAGNOSTIC_TERMS, TermOK tm := by
  decide

/-- The lowered placeholder, in cons form. -/
theorem phLowCons : lowerL LLMBased.PLACEHOLDER = '[' :: "removido]".data := by
  decide

/-- The raw placeholder, in cons form. -/
theorem phRawCons : LLMBased.PLACEHOLDER = '[' :: "REMOVIDO]".data := by
  decide

/-- Every non-empty suffix of the lowered placeholder contains the
closing bracket. -/
theorem phLowSuffixBracket (u : List Char)
    (hu : u <:+ lowerL LLMBased.PLACEHOLDER) (hne : u ≠ []) : ']' ∈ u := by
  have H : ∀ v ∈ (lowerL LLMBased.PLACEHOLDER).tails, v ≠ [] → ']' ∈ v := by
    decide
  exact H u ((List.mem_tails _ _).mpr hu) hne

/-- Every non-empty suffix of the raw placeholder contains the closing
bracket. -/
theorem phRawSuffixBracket (u : List Char)
    (hu : u <:+ LLMBased.PLACEHOLDER) (hne : u ≠ []) : ']' ∈ u := by
  have H : ∀ v ∈ LLMBased.PLACEHOLDER.tails, v ≠ [] → ']' ∈ v := by
    decide
  exact H u ((List.mem_tails _ _).mpr hu) hne

/-- lowerL distributes over append. -/
theorem lowerLAppend (a b : List Char) :
    lowerL (a ++ b) = lowerL a ++ lowerL b := by
  simp [lowerL]

/-- lowerL commutes with drop. -/
theorem lowerLDrop (n : Nat) (l : List Char) :
    lowerL (l.drop n) = (lowerL l).drop n := by
  simp [lowerL, List.map_drop]

/-- lowerL on a cons. -/
theorem lowerLCons (c : Char) (l : List Char) :
    lowerL (c :: l) = pyLowerChar c :: lowerL l := rfl

/-- Text kept by the replacement was already a prefix of the input: a
bracket-free prefix of the output lifts back to the input. -/
theorem prefixKeep (t' : List Char) :
    ∀ (s u : List Char), '[' ∉ u →
      u <+: lowerL (LLMBased.replaceCI t' s) → u <+: lowerL s := by
  have H : ∀ n, ∀ s u : List Char, s.length ≤ n → '[' ∉ u →
      u <+: lowerL (LLMBased.replaceCI t' s) → u <+: lowerL s := by
    intro n
    induction n with
    | zero =>
      intro s u hl hbl hu
      have hs : s = [] := List.length_eq_zero.mp (Nat.le_zero.mp hl)
      subst hs
      rw [LLMBased.replaceCI] at hu
      exact hu
    | succ n ih =>
      intro s u hl hbl hu
      match s with
      | [] =>
        rw [LLMBased.replaceCI] at hu
        exact hu
      | c :: rest =>
        rw [LLMBased.replaceCI] at hu
        by_cases hm : t' ≠ [] ∧
            (lowerL t').isPrefixOf (lowerL (c :: rest)) = true
        · rw [if_pos hm] at hu
          rw [lowerLAppend, phLowCons, List.cons_append] at hu
          rcases prefixConsCases hu with rfl | ⟨u', rfl, _⟩
          · exact nilPrefix _
          · exact absurd (List.mem_cons_self _ _) hbl
        · rw [if_neg hm] at hu
          rw [lowerLCons] at hu
          rcases prefixConsCases hu with rfl | ⟨u', rfl, hu'⟩
          · exact nilPrefix _
          · have hbl' : '[' ∉ u' := fun hx =>
              hbl (List.mem_cons_of_mem _ hx)
            have hlen : rest.length ≤ n := by
              simp only [List.length_cons] at hl
              omega
            have := ih rest u' hlen hbl' hu'
            rw [lowerLCons]
            exact List.prefix_cons_iff.mpr (Or.inr ⟨u', rfl, this⟩)
  intro s u hbl hu
  exact H s.length s u (Nat.le_refl _) hbl hu

/-- Replacing one term cannot create an occurrence of a bracket-free,
lowercase term that was not already present. -/
theorem occursPreserve (t t' : List Char)
    (hne : t ≠ [])
    (hbr : ']' ∉ t) (hbl : '[' ∉ t)
    (hph : ¬ t <:+: lowerL LLMBased.PLACEHOLDER) :
    ∀ s : List Char, ¬ t <:+: lowerL s →
      ¬ t <:+: lowerL (LLMBased.replaceCI t' s) := by
  have H : ∀ n, ∀ s : List Char, s.length ≤ n → ¬ t <:+: lowerL s →
      ¬ t <:+: lowerL (LLMBased.replaceCI t' s) := by
    intro n
    induction n with
    | zero =>
      intro s hl hocc
      have hs : s = [] := List.length_eq_zero.mp (Nat.le_zero.mp hl)
      subst hs
      rw [LLMBased.replaceCI]
      exact hocc
    | succ n ih =>
      intro s hl hocc
      match s with
      | [] =>
        rw [LLMBased.replaceCI]
        exact hocc
      | c :: rest =>
        rw [LLMBased.replaceCI]
        by_cases hm : t' ≠ [] ∧
            (lowerL t').isPrefixOf (lowerL (c :: rest)) = true
        · rw [if_pos hm]
          intro hocc2
          rw [lowerLAppend] at hocc2
          rcases infixAppendCases _ hocc2 with
            h1 | h2 | ⟨l1, l2, heq, hn1, _, hs1, _⟩
          · exact hph h1
          · have ht'1 : 1 ≤ t'.length := by
              rcases ht' : t' with _ | ⟨a, b⟩
              · exact absurd ht' hm.1
              · simp
            have hdlen : ((c :: rest).drop t'.length).length ≤ n := by
              simp only [List.length_cons] at hl
              simp only [List.length_drop, List.length_cons]
              omega
            have hnod : ¬ t <:+: lowerL ((c :: rest).drop t'.length) := by
              intro hx
              apply hocc
              rw [lowerLDrop] at hx
              exact hx.trans (List.drop_suffix _ _).isInfix
            exact ih _ hdlen hnod h2
          · have : ']' ∈ l1 := phLowSuffixBracket l1 hs1 hn1
            exact hbr (heq ▸ List.mem_append_left _ this)
        · rw [if_neg hm]
          intro hocc2
          rw [lowerLCons] at hocc2
          rcases infixConsCases hocc2 with hp | hi
          · rcases prefixConsCases hp with rfl | ⟨u', hu', hu⟩
            · exact hne rfl
            · have hbl' : '[' ∉ u' := fun hx =>
                hbl (hu' ▸ List.mem_cons_of_mem _ hx)
              have hk := prefixKeep t' rest u' hbl' hu
              apply hocc
              rw [lowerLCons]
              exact (List.prefix_cons_iff.mpr
                (Or.inr ⟨u', hu', hk⟩)).isInfix
          · have hlen : rest.length ≤ n := by
              simp only [List.length_cons] at hl
              omega
            have hno : ¬ t <:+: lowerL rest := fun hx => hocc (by
              rw [lowerLCons]
              exact infixOfCons hx)
            exact ih rest hlen hno hi
  intro s
  exact H s.length s (Nat.le_refl _)

/-- After replacing a term, that term no longer occurs. -/
theorem selfElim (t : List Char)
    (hne : t ≠ []) (hlow : lowerL t = t)
    (hbr : ']' ∉ t) (hbl : '[' ∉ t)
    (hph : ¬ t <:+: lowerL LLMBased.PLACEHOLDER) :
    ∀ s : List Char, ¬ t <:+: lowerL (LLMBased.replaceCI t s) := by
  have H : ∀ n, ∀ s : List Char, s.length ≤ n →
      ¬ t <:+: lowerL (LLMBased.replaceCI t s) := by
    intro n
    induction n with
    | zero =>
      intro s hl
      have hs : s = [] := List.length_eq_zero.mp (Nat.le_zero.mp hl)
      subst hs
      rw [LLMBased.replaceCI]
      intro hx
      exact hne (infixNilElim (by simpa [lowerL] using hx))
    | succ n ih =>
      intro s hl
      match s with
      | [] =>
        rw [LLMBased.replaceCI]
        intro hx
        exact hne (infixNilElim (by simpa [lowerL] using hx))
      | c :: rest =>
        rw [LLMBased.replaceCI]
        by_cases hm : t ≠ [] ∧
            (lowerL t).isPrefixOf (lowerL (c :: rest)) = true
        · rw [if_pos hm]
          intro hocc2
          rw [lowerLAppend] at hocc2
          rcases infixAppendCases _ hocc2 with
            h1 | h2 | ⟨l1, l2, heq, hn1, _, hs1, _⟩
          · exact hph h1
          · have ht'1 : 1 ≤ t.length := by
              rcases ht' : t with _ | ⟨a, b⟩
              · exact absurd ht' hne
              · simp
            have hdlen : ((c :: rest).drop t.length).length ≤ n := by
              simp only [List.length_cons] at hl
              simp only [List.length_drop, List.length_cons]
              omega
            exact ih _ hdlen h2
          · have : ']' ∈ l1 := phLowSuffixBracket l1 hs1 hn1
            exact hbr (heq ▸ List.mem_append_left _ this)
        · rw [if_neg hm]
          intro hocc2
          rw [lowerLCons] at hocc2
          rcases infixConsCases hocc2 with hp | hi
          · rcases prefixConsCases hp with rfl | ⟨u', hu', hu⟩
            · exact hne rfl
            · have hbl' : '[' ∉ u' := fun hx =>
                hbl (hu' ▸ List.mem_cons_of_mem _ hx)
              have hk := prefixKeep t rest u' hbl' hu
              apply hm
              refine ⟨hne, ?_⟩
              rw [isPrefixOfIff, hlow, lowerLCons]
              exact List.prefix_cons_iff.mpr (Or.inr ⟨u', hu', hk⟩)
          · have hlen : rest.length ≤ n := by
              simp only [List.length_cons] at hl
              omega
            exact ih rest hlen hi
  intro s
  exact H s.length s (Nat.le_refl _)

/-- A suffix of the raw placeholder that is still a prefix of the text
survives the replacement of a term. -/
theorem phForward (t' : List Char)
    (hph : ¬ lowerL t' <:+: lowerL LLMBased.PLACEHOLDER)
    (hbr : ']' ∉ lowerL t') :
    ∀ (s u : List Char), u <:+ LLMBased.PLACEHOLDER → u <+: s →
      u <+: LLMBased.replaceCI t' s := by
  have H : ∀ n, ∀ s u : List Char, s.length ≤ n →
      u <:+ LLMBased.PLACEHOLDER → u <+: s →
      u <+: LLMBased.replaceCI t' s := by
    intro n
    induction n with
    | zero =>
      intro s u hl hsu hus
      have hs : s = [] := List.length_eq_zero.mp (Nat.le_zero.mp hl)
      subst hs
      rw [LLMBased.replaceCI]
      exact hus
    | succ n ih =>
      intro s u hl hsu hus
      match s with
      | [] =>
        rw [LLMBased.replaceCI]
        exact hus
      | c :: rest =>
        rw [LLMBased.replaceCI]
        by_cases hm : t' ≠ [] ∧
            (lowerL t').isPrefixOf (lowerL (c :: rest)) = true
        · rw [if_pos hm]
          cases u with
          | nil => exact nilPrefix _
          | cons d u' =>
            exfalso
            have hlt : lowerL t' <+: lowerL (c :: rest) :=
              (isPrefixOfIff _ _).mp hm.2
            have hlu : lowerL (d :: u') <+: lowerL (c :: rest) :=
              mapPrefixMono _ hus
            rcases prefixTotal hlt hlu with h1 | h2
            · have hsuf : lowerL (d :: u') <:+ lowerL LLMBased.PLACEHOLDER :=
                mapSuffixMono _ hsu
              exact hph (h1.isInfix.trans hsuf.isInfix)
            · have hmem : ']' ∈ (d :: u') :=
                phRawSuffixBracket _ hsu (by simp)
              have : ']' ∈ lowerL (d :: u') := by
                refine List.mem_map.mpr ⟨']', hmem, by decide⟩
              exact hbr (h2.subset this)
        · rw [if_neg hm]
          rcases prefixConsCases hus with rfl | ⟨u', rfl, hu'⟩
          · exact nilPrefix _
          · have hlen : rest.length ≤ n := by
              simp only [List.length_cons] at hl
              omega
            have := ih rest u' hlen (tailSuffix hsu) hu'
            exact List.prefix_cons_iff.mpr (Or.inr ⟨u', rfl, this⟩)
  intro s u hsu hus
  exact H s.length s u (Nat.le_refl _) hsu hus

/-- A placeholder already present in the text survives the replacement
of a term. -/
theorem phKeep (t' : List Char)
    (hph : ¬ lowerL t' <:+: lowerL LLMBased.PLACEHOLDER)
    (hbr : ']' ∉ lowerL t') :
    ∀ s : List Char, LLMBased.PLACEHOLDER <:+: s →
      LLMBased.PLACEHOLDER <:+: LLMBased.replaceCI t' s := by
  have H : ∀ n, ∀ s : List Char, s.length ≤ n →
      LLMBased.PLACEHOLDER <:+: s →
      LLMBased.PLACEHOLDER <:+: LLMBased.replaceCI t' s := by
    intro n
    induction n with
    | zero =>
      intro s hl hp
      have hs : s = [] := List.length_eq_zero.mp (Nat.le_zero.mp hl)
      subst hs
      exact absurd (infixNilElim hp) (by decide)
    | succ n ih =>
      intro s hl hp
      match s with
      | [] => exact absurd (infixNilElim hp) (by decide)
      | c :: rest =>
        rw [LLMBased.replaceCI]
        by_cases hm : t' ≠ [] ∧
            (lowerL t').isPrefixOf (lowerL (c :: rest)) = true
        · rw [if_pos hm]
          exact (List.prefix_append _ _).isInfix
        · rw [if_neg hm]
          rcases infixConsCases hp with hpre | hi
          · rcases prefixConsCases hpre with hnil | ⟨u', hu', hu⟩
            · exact absurd hnil (by decide)
            · rw [phRawCons] at hu'
              have hcu := (List.cons.injEq _ _ _ _).mp hu'
              have hsuf : u' <:+ LLMBased.PLACEHOLDER := by
                rw [phRawCons, ← hcu.2]
                exact ⟨['['], rfl⟩
              have hlen : rest.length ≤ n := by
                simp only [List.length_cons] at hl
                omega
              have hfw := phForward t' hph hbr rest u' hsuf hu
              have : LLMBased.PLACEHOLDER <+:
                  c :: LLMBased.replaceCI t' rest := by
                rw [phRawCons, hu']
                exact List.prefix_cons_iff.mpr (Or.inr ⟨u', rfl, hfw⟩)
              exact this.isInfix
          · have hlen : rest.length ≤ n := by
              simp only [List.length_cons] at hl
              omega
            exact infixOfCons (ih rest hlen hi)
  intro s
  exact H s.length s (Nat.le_refl _)

/-- Replacing a term that occurs in the text inserts the placeholder. -/
theorem phNew (t : List Char) (hne : t ≠ []) (hlow : lowerL t = t) :
    ∀ s : List Char, t <:+: lowerL s →
      LLMBased.PLACEHOLDER <:+: LLMBased.replaceCI t s := by
  have H : ∀ n, ∀ s : List Char, s.length ≤ n → t <:+: lowerL s →
      LLMBased.PLACEHOLDER <:+: LLMBased.replaceCI t s := by
    intro n
    induction n with
    | zero =>
      intro s hl hocc
      have hs : s = [] := List.length_eq_zero.mp (Nat.le_zero.mp hl)
      subst hs
      exact absurd (infixNilElim (by simpa [lowerL] using hocc)) hne
    | succ n ih =>
      intro s hl hocc
      match s with
      | [] =>
        exact absurd (infixNilElim (by simpa [lowerL] using hocc)) hne
      | c :: rest =>
        rw [LLMBased.replaceCI]
        by_cases hm : t ≠ [] ∧
            (lowerL t).isPrefixOf (lowerL (c :: rest)) = true
        · rw [if_pos hm]
          exact (List.prefix_append _ _).isInfix
        · rw [if_neg hm]
          rw [lowerLCons] at hocc
          rcases infixConsCases hocc with hpre | hi
          · exfalso
            apply hm
            refine ⟨hne, ?_⟩
            rw [isPrefixOfIff, hlow, lowerLCons]
            exact hpre
          · have hlen : rest.length ≤ n := by
              simp only [List.length_cons] at hl
              omega
            exact infixOfCons (ih rest hlen hi)
  intro s
  exact H s.length s (Nat.le_refl _)

/-- One fold step of the content-cleaning loop. -/
theorem cleanContentCons (content : String) (t0 : String)
    (rest : List String) :
    LLMBased.cleanContent content (t0 :: rest) =
      LLMBased.cleanContent
        (String.mk (LLMBased.replaceCI t0.data content.data)) rest := rfl

/-- A term that does not occur stays absent through the whole cleaning
fold. -/
theorem foldKeepNoOccur (t : List Char)
    (hne : t ≠ [])
    (hbr : ']' ∉ t) (hbl : '[' ∉ t)
    (hph : ¬ t <:+: lowerL LLMBased.PLACEHOLDER) :
    ∀ (terms : List String) (s : String), ¬ t <:+: lowerL s.data →
      ¬ t <:+: lowerL (LLMBased.cleanContent s terms).data := by
  intro terms
  induction terms with
  | nil => intro s h; exact h
  | cons t0 rest ih =>
    intro s h
    rw [cleanContentCons]
    exact ih _ (occursPreserve t t0.data hne hbr hbl hph s.data h)

/-- A placeholder stays present through the whole cleaning fold. -/
theorem foldKeepPh :
    ∀ (terms : List String), (∀ tm ∈ terms, TermOK tm) →
    ∀ (s : String), LLMBased.PLACEHOLDER <:+: s.data →
      LLMBased.PLACEHOLDER <:+: (LLMBased.cleanContent s terms).data := by
  intro terms
  induction terms with
  | nil => intro _ s h; exact h
  | cons t0 rest ih =>
    intro hok s h
    obtain ⟨hne0, hlow0, hbl0, hbr0, hph0⟩ := hok t0 (List.mem_cons_self _ _)
    rw [cleanContentCons]
    refine ih (fun tm hm => hok tm (List.mem_cons_of_mem _ hm)) _ ?_
    refine phKeep t0.data ?_ ?_ _ h
    · rw [hlow0]
      intro hx
      rw [show LLMBased.isSubL t0.data (lowerL LLMBased.PLACEHOLDER) = true
        from (isSubLIff _ _).mpr hx] at hph0
      cases hph0
    · rw [hlow0]
      exact hbr0

/-- After cleaning, no found term occurs in the content. -/
theorem cleanNoTerm :
    ∀ (terms : List String), (∀ tm ∈ terms, TermOK tm) →
    ∀ (content : String) (tm : String), tm ∈ terms →
      ¬ tm.data <:+: lowerL (LLMBased.cleanContent content terms).data := by
  intro terms
  induction terms with
  | nil =>
    intro _ content tm hm
    simp at hm
  | cons t0 rest ih =>
    intro hok content tm hm
    obtain ⟨hne0, hlow0, hbl0, hbr0, hph0⟩ := hok t0 (List.mem_cons_self _ _)
    have hph0' : ¬ t0.data <:+: lowerL LLMBased.PLACEHOLDER := by
      intro hx
      rw [show LLMBased.isSubL t0.data (lowerL LLMBased.PLACEHOLDER) = true
        from (isSubLIff _ _).mpr hx] at hph0
      cases hph0
    rcases List.mem_cons.mp hm with rfl | hm'
    · rw [cleanContentCons]
      refine foldKeepNoOccur tm.data hne0 hbr0 hbl0 hph0' rest _ ?_
      have := selfElim tm.data hne0 hlow0 hbr0 hbl0 hph0' content.data
      exact this
    · rw [cleanContentCons]
      exact ih (fun x hx => hok x (List.mem_cons_of_mem _ hx)) _ tm hm'

/-- After cleaning a content in which the first found term occurs, the
placeholder occurs. -/
theorem cleanHasPh (t0 : String) (rest : List String) (content : String)
    (hok0 : TermOK t0) (hokR : ∀ tm ∈ rest, TermOK tm)
    (hocc : t0.data <:+: lowerL content.data) :
    LLMBased.PLACEHOLDER <:+:
      (LLMBased.cleanContent content (t0 :: rest)).data := by
  obtain ⟨hne0, hlow0, hbl0, hbr0, hph0⟩ := hok0
  rw [cleanContentCons]
  exact foldKeepPh rest hokR _ (phNew t0.data hne0 hlow0 content.data hocc)

/-- With enough fuel, the structural version agrees with replaceCI. -/
theorem replCIF_eq (t : List Char) :
    ∀ n s, s.length ≤ n → LLMBased.replaceCI t s = replCIF t n s := by
  intro n
  induction n with
  | zero =>
    intro s hl
    have hs : s = [] := List.length_eq_zero.mp (Nat.le_zero.mp hl)
    subst hs
    rw [LLMBased.replaceCI]
    rfl
  | succ n ih =>
    intro s hl
    match s with
    | [] =>
      rw [LLMBased.replaceCI]
      rfl
    | c :: rest =>
      rw [LLMBased.replaceCI]
      show _ = if t ≠ [] ∧ (lowerL t).isPrefixOf (lowerL (c :: rest)) then
          LLMBased.PLACEHOLDER ++ replCIF t n ((c :: rest).drop t.length)
        else c :: replCIF t n rest
      by_cases hm : t ≠ [] ∧ (lowerL t).isPrefixOf (lowerL (c :: rest)) = true
      · rw [if_pos hm, if_pos hm]
        have ht1 : 1 ≤ t.length := by
          rcases t with _ | ⟨x, xs⟩
          · exact absurd rfl hm.1
          · simp
        have : ((c :: rest).drop t.length).length ≤ n := by
          rw [List.length_drop]
          simp only [List.length_cons] at hl ⊢
          omega
        rw [ih _ this]
      · rw [if_neg hm, if_neg hm]
        have : rest.length ≤ n := by
          simp only [List.length_cons] at hl
          omega
        rw [ih _ this]

/-- guardSection on a section with at least one forbidden term found. -/
theorem guardSectionPos (sec : SummarySection)
    (h : LLMBased.foundTerms sec.content ≠ []) :
    LLMBased.guardSection sec =
      ({ sec with content := LLMBased.cleanContent sec.content (LLMBased.foundTerms sec.content) },
       [LLMBased.termsWarning sec (LLMBased.foundTerms sec.content)]) := by
  unfold LLMBased.guardSection
  rw [if_pos h]

/-- guardSection on a clean section is the identity with no warning. -/
theorem guardSectionNeg (sec : SummarySection)
    (h : ¬ LLMBased.foundTerms sec.content ≠ []) :
    LLMBased.guardSection sec = (sec, []) := by
  unfold LLMBased.guardSection
  rw [if_neg h]

/-- Membership in foundTerms unpacked. -/
theorem foundTermsMem (content : String) (tm : String)
    (hm : tm ∈ LLMBased.foundTerms content) :
    tm ∈ FORBIDDEN_DIAGNOSTIC_TERMS ∧
      LLMBased.isSubL tm.data (lowerL content.data) = true := by
  unfold LLMBased.foundTerms at hm
  exact ⟨(List.mem_filter.mp hm).1, (List.mem_filter.mp hm).2⟩

/-- The section-level warnings produced by guardSection, concatenated,
are exactly one termsWarning per affected section. -/
theorem guardWarnings (sections : List SummarySection) :
    (sections.map LLMBased.guardSection).flatMap (fun r => r.2) =
      (sections.filter (fun s => LLMBased.foundTerms s.content ≠ [])).map
        (fun s => LLMBased.termsWarning s (LLMBased.foundTerms s.content)) := by
  induction sections with
  | nil => rfl
  | cons s rest ih =>
    simp only [List.map_cons, List.flatMap_cons, List.filter_cons]
    by_cases h : LLMBased.foundTerms s.content = []
    · rw [guardSectionNeg s (by simp [h]), if_neg (by simp [h])]
      simpa using ih
    · rw [guardSectionPos s h, if_pos (by simpa using h)]
      simp only [List.map_cons, List.singleton_append]
      rw [ih]

/-- The full warning list of applyGuardrails. -/
theorem guardWarningsEq (sections : List SummarySection) :
    (LLMBased.applyGuardrails sections).2 =
      (sections.filter (fun s => LLMBased.foundTerms s.content ≠ [])).map
        (fun s => LLMBased.termsWarning s (LLMBased.foundTerms s.content)) ++
      (if sections.any (fun s => LLMBased.foundTerms s.content ≠ [])
        then [LLMBased.aggregateWarning] else []) := by
  show (sections.map LLMBased.guardSection).flatMap (fun r => r.2) ++
      (if sections.any (fun s => LLMBased.foundTerms s.content ≠ [])
        then [LLMBased.aggregateWarning] else []) = _
  rw [guardWarnings]

/-- No per-section warning carries the aggregate code. -/
theorem termsWarningsNotAggregate (l : List SummarySection) :
    (l.map (fun s =>
        LLMBased.termsWarning s (LLMBased.foundTerms s.content))).filter
      (fun w => w.code = "LLM_GUARDRAILS_TRIGGERED") = [] := by
  induction l with
  | nil => rfl
  | cons s rest ih =>
    simp only [List.map_cons, List.filter_cons]
    rw [if_neg (by simp [LLMBased.termsWarning])]
    exact ih

/-- The per-section behaviour of guardSection. -/
theorem guardSectionContent (sec : SummarySection) :
    (LLMBased.guardSection sec).1.title = sec.title ∧
    (LLMBased.guardSection sec).1.code = sec.code ∧
    (LLMBased.guardSection sec).1.order = sec.order ∧
    (LLMBased.foundTerms sec.content = [] →
      (LLMBased.guardSection sec).1.content = sec.content) ∧
    (LLMBased.foundTerms sec.content ≠ [] →
      (∀ tm ∈ LLMBased.foundTerms sec.content,
        ¬ tm.data <:+: lowerL (LLMBased.guardSection sec).1.content.data) ∧
      LLMBased.PLACEHOLDER <:+:
        (LLMBased.guardSection sec).1.content.data) := by
  by_cases h : LLMBased.foundTerms sec.content = []
  · rw [guardSectionNeg sec (by simp [h])]
    exact ⟨rfl, rfl, rfl, fun _ => rfl, fun hn => absurd h hn⟩
  · rw [guardSectionPos sec h]
    have hokAll : ∀ x ∈ LLMBased.foundTerms sec.content, TermOK x := by
      intro x hx
      exact allTermsOK x (foundTermsMem _ x hx).1
    refine ⟨rfl, rfl, rfl, fun he => absurd he h, fun _ => ⟨?_, ?_⟩⟩
    · intro tm hm
      exact cleanNoTerm _ hokAll sec.content tm hm
    · obtain ⟨t0, rest, hfr⟩ :
          ∃ t0 rest, LLMBased.foundTerms sec.content = t0 :: rest := by
        rcases hfound : LLMBased.foundTerms sec.content with _ | ⟨a, l⟩
        · exact absurd hfound h
        · exact ⟨a, l, rfl⟩
      show LLMBased.PLACEHOLDER <:+:
        (LLMBased.cleanContent sec.content
          (LLMBased.foundTerms sec.content)).data
      rw [hfr]
      have ht0mem : t0 ∈ LLMBased.foundTerms sec.content := by
        rw [hfr]
        exact List.mem_cons_self _ _
      have hocc : t0.data <:+: lowerL sec.content.data :=
        (isSubLIff _ _).mp (foundTermsMem _ t0 ht0mem).2
      refine cleanHasPh t0 rest sec.content (hokAll t0 ht0mem) ?_ hocc
      intro tm hm
      refine hokAll tm ?_
      rw [hfr]
      exact List.mem_cons_of_mem _ hm

/-- The element-wise relation between input sections and guarded
sections. -/
theorem guardForall (sections : List SummarySection) :
    List.Forall₂ (fun sec out =>
        out.title = sec.title ∧ out.code = sec.code ∧
        out.order = sec.order ∧
        (LLMBased.foundTerms sec.content = [] →
          out.content = sec.content) ∧
        (LLMBased.foundTerms sec.content ≠ [] →
          (∀ tm ∈ LLMBased.foundTerms sec.content,
            ¬ tm.data <:+: lowerL out.content.data) ∧
          LLMBased.PLACEHOLDER <:+: out.content.data))
      sections ((sections.map LLMBased.guardSection).map (fun r => r.1)) := by
  induction sections with
  | nil => exact List.Forall₂.nil
  | cons s rest ih =>
    simp only [List.map_cons]
    exact List.Forall₂.cons (guardSectionContent s) ih

/-- Claim C4: for every list of parsed AI-reply sections, the guardrail
filter returns a list of the same length (it is a total function and
never aborts); each output section keeps its title, code and order; a
section with no forbidden term found keeps its content, while in a
section whose content contains (case-insensitively) a forbidden
diagnostic term, after cleaning no found term occurs in the lowered
content any more and the redaction placeholder "[REMOVIDO]" occurs; the
warning list is exactly one high-level LLM_DIAGNOSTIC_TERMS_DETECTED
warning per affected section, naming the section title and at most three
matched terms, followed by exactly one medium-level
LLM_GUARDRAILS_TRIGGERED aggregate warning if and only if at least one
section was affected. -/
theorem c4_guardrails (sections : List SummarySection) :
    (LLMBased.applyGuardrails sections).1.length = sections.length ∧
    List.Forall₂ (fun sec out =>
        out.title = sec.title ∧ out.code = sec.code ∧
        out.order = sec.order ∧
        (LLMBased.foundTerms sec.content = [] →
          out.content = sec.content) ∧
        (LLMBased.foundTerms sec.content ≠ [] →
          (∀ tm ∈ LLMBased.foundTerms sec.content,
            ¬ tm.data <:+: lowerL out.content.data) ∧
          LLMBased.PLACEHOLDER <:+: out.content.data))
      sections (LLMBased.applyGuardrails sections).1 ∧
    (LLMBased.applyGuardrails sections).2 =
      (sections.filter (fun s => LLMBased.foundTerms s.content ≠ [])).map
        (fun s => LLMBased.termsWarning s (LLMBased.foundTerms s.content)) ++
      (if sections.any (fun s => LLMBased.foundTerms s.content ≠ [])
        then [LLMBased.aggregateWarning] else []) ∧
    ((LLMBased.applyGuardrails sections).2.filter
        (fun w => w.code = "LLM_GUARDRAILS_TRIGGERED")).length =
      (if sections.any (fun s => LLMBased.foundTerms s.content ≠ [])
        then 1 else 0) ∧
    (∀ sec found, (LLMBased.termsWarning sec found).level =
        WarningLevel.high ∧
      (LLMBased.termsWarning sec found).code =
        "LLM_DIAGNOSTIC_TERMS_DETECTED" ∧
      (LLMBased.termsWarning sec found).message =
        "Termos diagnósticos detectados na seção \x27" ++ sec.title ++
          "\x27: " ++ String.intercalate ", " (found.take 3) ∧
      (found.take 3).length ≤ 3) ∧
    LLMBased.aggregateWarning.level = WarningLevel.medium ∧
    LLMBased.aggregateWarning.code = "LLM_GUARDRAILS_TRIGGERED" := by
  refine ⟨?_, ?_, guardWarningsEq sections, ?_, ?_, rfl, rfl⟩
  · show ((sections.map LLMBased.guardSection).map (fun r => r.1)).length =
      sections.length
    rw [List.length_map, List.length_map]
  · exact guardForall sections
  · rw [guardWarningsEq sections, List.filter_append,
      termsWarningsNotAggregate]
    by_cases ha : sections.any
        (fun s => LLMBased.foundTerms s.content ≠ []) = true
    · rw [if_pos ha, if_pos ha]
      decide
    · rw [if_neg ha, if_neg ha]
      decide
  · intro sec found
    refine ⟨rfl, rfl, rfl, ?_⟩
    rw [List.length_take]
    exact min_le_left _ _

/-- A concrete run: one section containing the forbidden term
"diagnóstico" is redacted and both warnings are emitted. -/
theorem c4_guardrails_witness :
    (LLMBased.applyGuardrails
        [⟨"Avaliação", "assessment",
          "Paciente com diagnóstico de gripe", 6⟩]).1.map
        (fun s => s.content) = ["Paciente com [REMOVIDO] de gripe"] ∧
    (LLMBased.applyGuardrails
        [⟨"Avaliação", "assessment",
          "Paciente com diagnóstico de gripe", 6⟩]).2.map
        (fun w => (w.code, w.level)) =
      [("LLM_DIAGNOSTIC_TERMS_DETECTED", WarningLevel.high),
       ("LLM_GUARDRAILS_TRIGGERED", WarningLevel.medium)] ∧
    (LLMBased.applyGuardrails
        [⟨"Avaliação", "assessment",
          "Paciente com diagnóstico de gripe", 6⟩]).1.length = 1 := by
  refine ⟨?_, by decide,
    (c4_guardrails [⟨"Avaliação", "assessment",
      "Paciente com diagnóstico de gripe", 6⟩]).1⟩
  show [String.mk (LLMBased.replaceCI "diagnóstico".data
      "Paciente com diagnóstico de gripe".data)] =
    ["Paciente com [REMOVIDO] de gripe"]
  rw [replCIF_eq "diagnóstico".data 33
    "Paciente com diagnóstico de gripe".data (by decide)]
  decide

/-! ## Claim C10 -/

/-- Claim C10: whenever both pressures are present and systolic ≤
diastolic, the consistency check emits exactly the pair BP_INCONSISTENT
(high) followed by PULSE_PRESSURE_LOW (medium): the non-positive pulse
pressure is always below 25, so the inconsistency warning is never the
only warning this check produces. -/
theorem c10_pulse_check_not_suppressed (vs : VitalSigns) (s d : Int)
    (hs : vs.systolic_bp = some s) (hd : vs.diastolic_bp = some d)
    (hle : s ≤ d) :
    (ClinicalValidator.validateBloodPressureConsistency (some vs)).map
        (fun w => (w.code, w.level)) =
      [("BP_INCONSISTENT", WarningLevel.high),
       ("PULSE_PRESSURE_LOW", WarningLevel.medium)] := by
  simp only [ClinicalValidator.validateBloodPressureConsistency, hs, hd]
  rw [if_pos hle, if_pos (by omega : s - d < 25)]
  rfl

/-- Witness for c10_pulse_check_not_suppressed at systolic 80,
diastolic 90. -/
theorem c10_pulse_check_not_suppressed_witness :
    vs8090.systolic_bp = some 80 ∧ vs8090.diastolic_bp = some 90 ∧
    (80 : Int) ≤ 90 ∧
    (ClinicalValidator.validateBloodPressureConsistency (some vs8090)).map
        (fun w => (w.code, w.level)) =
      [("BP_INCONSISTENT", WarningLevel.high),
       ("PULSE_PRESSURE_LOW", WarningLevel.medium)] :=
  ⟨by decide, by decide, by decide,
    c10_pulse_check_not_suppressed vs8090 80 90 rfl rfl (by decide)⟩

end HC
